import Mathlib

set_option linter.unnecessarySeqFocus false
set_option linter.unusedVariables false

/-!
Verification of the Pattern Detection & Guided Remediation Engine.

This file gives a shallow embedding of the core of the engine:
the line-oriented diff algorithms, the detection rules for React memory
leaks and null-reference patterns, the memory-leak fix synthesizer, the
confirm / apply / rollback tools, and the JSON-file fix store.  JavaScript
semantics that matter to the claims (truthiness of strings, `undefined`
propagation in template literals and array indexing, first-match regex
replacement, `exec` loops over global regexes) are modelled explicitly.
Filesystem and store effects are modelled by explicit state passing over an
association-list filesystem; wall-clock timestamps, generated UUIDs and
I/O failures are inputs supplied by an environment record.
-/

/-- The character class of the JavaScript whitespace escapes relevant here
(ASCII part of the regex class used by trim and the whitespace patterns). -/
def jsWs (c : Char) : Bool :=
  c = ' ' || c = '\t' || c = '\n' || c = '\r' || c = '\x0b' || c = '\x0c'

/-- JavaScript String.prototype.trim: strip whitespace from both ends. -/
def jsTrim (s : String) : String :=
  ⟨((s.toList.dropWhile jsWs).reverse.dropWhile jsWs).reverse⟩

/-- Split a character list at every occurrence of a separator character.
The result is never empty; splitting the empty list gives one empty field. -/
def splitCharList (sep : Char) : List Char → List (List Char)
  | [] => [[]]
  | c :: rest =>
    match splitCharList sep rest with
    | [] => [[]]
    | h :: t => if c = sep then [] :: h :: t else (c :: h) :: t

/-- JavaScript content.split('\n'). -/
def splitLines (s : String) : List String :=
  (splitCharList '\n' s.toList).map (fun l => ⟨l⟩)

/-- JavaScript lines.join('\n'). -/
def joinLines (l : List String) : String :=
  String.intercalate "\n" l

/-- JavaScript String.prototype.includes (substring test). -/
def includesStr (s sub : String) : Bool :=
  (List.range (s.toList.length + 1)).any (fun i => sub.toList.isPrefixOf (s.toList.drop i))

/-- JavaScript truthiness of a possibly-undefined string value:
undefined and the empty string are falsy. -/
def jsTruthy : Option String → Bool
  | none => false
  | some s => s ≠ ""

/-- Rendering of a possibly-undefined string inside a template literal:
undefined prints as the text "undefined". -/
def jsTemplate : Option String → String
  | none => "undefined"
  | some s => s

/-- JavaScript Array.prototype.findIndex: index of first hit or -1. -/
def jsFindIndex {α : Type} (p : α → Bool) (l : List α) : Int :=
  match l.findIdx? p with
  | some i => (i : Int)
  | none => -1

/-- JavaScript indexing lines[i] for a possibly out-of-range (or negative)
index: out of range gives undefined. -/
def jsGetLine (l : List String) (i : Int) : Option String :=
  if i < 0 then none else l[i.toNat]?

/-- Number of newline characters among the first idx characters; JavaScript
content.substring(0, idx).split('\n').length equals this plus one. -/
def countNewlinesBefore (cs : List Char) (idx : Nat) : Nat :=
  ((cs.take idx).filter (fun c => c = '\n')).length

/-- JavaScript s.substring(0, n) (for n ≥ 0). -/
def substrTo (s : String) (n : Nat) : String :=
  ⟨s.toList.take n⟩

/-- Number of occurrences of a character, as in (content.match(/x/g) || []).length. -/
def countChar (s : String) (c : Char) : Nat :=
  (s.toList.filter (fun d => d = c)).length

/-- JavaScript s.startsWith(pre). -/
def strStartsWith (s pre : String) : Bool :=
  pre.toList.isPrefixOf s.toList

/-- JavaScript s.substring(n) (drop the first n characters). -/
def strDrop (s : String) (n : Nat) : String :=
  ⟨s.toList.drop n⟩

/-!
## Diff Engine

The repository has two diff functions.  generateUnifiedDiff (apply-fix tool)
walks the two line lists with two cursors and a bounded lookahead of 3 to
classify pure deletions and pure insertions.  generateDiff (code-parser
utilities) pairs lines positionally.  We model the unified diff as the edit
script it emits: a keep step is the branch where both cursors advance over
equal lines (where the source flushes the pending hunk), and del/add are the
"-"/"+" hunk body lines.  Hunk headers and their grouping into hunks are
presentation of this script and are not modelled.
-/

/-- One step of the unified-diff cursor walk. -/
inductive DiffOp where
  | keep : DiffOp
  | del : String → DiffOp
  | add : String → DiffOp
deriving DecidableEq, Repr

/-- Edit script of generateUnifiedDiff.  Mirrors the source loop:
while either cursor is in range, compare originalLines[i] with
modifiedLines[j] (JavaScript === on possibly-undefined values, hence the
Option comparison); on mismatch try lookahead 1..3, first for a pure
deletion (originalLines[i+la] === modifiedLines[j]) then for a pure
insertion (originalLines[i] === modifiedLines[j+la]); otherwise emit the
pair as a changed line, guarding each push by the cursor being in range. -/
def unifiedDiffOps (o m : List String) : List DiffOp :=
  if o = [] ∧ m = [] then []
  else if o[0]? = m[0]? then
    .keep :: unifiedDiffOps o.tail m.tail
  else if o[1]? = m[0]? then (o.take 1).map .del ++ unifiedDiffOps (o.drop 1) m
  else if o[0]? = m[1]? then (m.take 1).map .add ++ unifiedDiffOps o (m.drop 1)
  else if o[2]? = m[0]? then (o.take 2).map .del ++ unifiedDiffOps (o.drop 2) m
  else if o[0]? = m[2]? then (m.take 2).map .add ++ unifiedDiffOps o (m.drop 2)
  else if o[3]? = m[0]? then (o.take 3).map .del ++ unifiedDiffOps (o.drop 3) m
  else if o[0]? = m[3]? then (m.take 3).map .add ++ unifiedDiffOps o (m.drop 3)
  else (o.take 1).map .del ++ ((m.take 1).map .add ++
    unifiedDiffOps (o.drop 1) (m.drop 1))
termination_by o.length + m.length
decreasing_by
  all_goals simp_all [List.getElem?_eq_none_iff, List.length_tail]
  all_goals
    rename_i h0 h1
    rcases o with _ | ⟨a, o'⟩ <;> rcases m with _ | ⟨b, m'⟩ <;>
      simp_all <;> omega

/-- Apply an edit script to the original line list: a keep step copies the
next original line, a del step consumes the next original line (checking it
is the recorded one), an add step inserts the recorded line.  The script
must consume the original exactly. -/
def applyOps : List DiffOp → List String → Option (List String)
  | [], [] => some []
  | [], _ :: _ => none
  | .keep :: ops, a :: o => (applyOps ops o).map (fun l => a :: l)
  | .keep :: _, [] => none
  | .del s :: ops, a :: o => if s = a then applyOps ops o else none
  | .del _ :: _, [] => none
  | .add s :: ops, o => (applyOps ops o).map (fun l => s :: l)

theorem applyOps_del_front (k : Nat) :
    ∀ (o : List String) (ops : List DiffOp),
      applyOps ((o.take k).map .del ++ ops) o = applyOps ops (o.drop k) := by
  induction k with
  | zero => intro o ops; simp
  | succ k ih =>
    intro o ops
    cases o with
    | nil => simp
    | cons a o' => simpa [applyOps] using ih o' ops

theorem applyOps_add_front (xs : List String) (ops : List DiffOp) (o : List String) :
    applyOps (xs.map .add ++ ops) o = (applyOps ops o).map (fun l => xs ++ l) := by
  induction xs with
  | nil => cases h : applyOps ops o <;> simp [h]
  | cons x xs ih => cases h : applyOps ops o <;> simp [applyOps, ih, h]

theorem unifiedDiff_roundTrip_aux :
    ∀ (n : Nat) (o m : List String), o.length + m.length ≤ n →
      applyOps (unifiedDiffOps o m) o = some m := by
  intro n
  induction n with
  | zero =>
    intro o m h
    have ho : o = [] := by cases o <;> simp_all
    have hm : m = [] := by cases m <;> simp_all
    subst ho; subst hm
    simp [unifiedDiffOps, applyOps]
  | succ n ih =>
    intro o m hlen
    rw [unifiedDiffOps]
    split_ifs with h0 h1 h2 h3 h4 h5 h6 h7
    · obtain ⟨rfl, rfl⟩ := h0
      simp [applyOps]
    · -- cursors agree: both lists are nonempty with equal heads
      rcases o with _ | ⟨a, o'⟩
      · rcases m with _ | ⟨b, m'⟩
        · exact absurd ⟨rfl, rfl⟩ h0
        · simp at h1
      · rcases m with _ | ⟨b, m'⟩
        · simp at h1
        · simp only [List.getElem?_cons_zero, Option.some.injEq] at h1
          subst h1
          simp only [List.tail_cons, applyOps]
          rw [ih o' m' (by simp at hlen; omega)]
          rfl
    · -- pure deletion, lookahead 1
      have hne : o ≠ [] := by
        rintro rfl
        rcases m with _ | ⟨b, m'⟩
        · exact h0 ⟨rfl, rfl⟩
        · simp at h2
      rw [applyOps_del_front]
      exact ih _ _ (by cases o <;> simp_all; omega)
    · -- pure insertion, lookahead 1
      have hne : m ≠ [] := by
        rintro rfl
        rcases o with _ | ⟨a, o'⟩
        · exact h0 ⟨rfl, rfl⟩
        · simp at h3
      rw [applyOps_add_front, ih o (m.drop 1) (by cases m <;> simp_all; omega)]
      simp only [Option.map_some', List.take_append_drop]
    · have hne : o ≠ [] := by
        rintro rfl
        rcases m with _ | ⟨b, m'⟩
        · exact h0 ⟨rfl, rfl⟩
        · simp at h4
      rw [applyOps_del_front]
      exact ih _ _ (by cases o <;> simp_all; omega)
    · have hne : m ≠ [] := by
        rintro rfl
        rcases o with _ | ⟨a, o'⟩
        · exact h0 ⟨rfl, rfl⟩
        · simp at h5
      rw [applyOps_add_front, ih o (m.drop 2) (by cases m <;> simp_all; omega)]
      simp only [Option.map_some', List.take_append_drop]
    · have hne : o ≠ [] := by
        rintro rfl
        rcases m with _ | ⟨b, m'⟩
        · exact h0 ⟨rfl, rfl⟩
        · simp at h6
      rw [applyOps_del_front]
      exact ih _ _ (by cases o <;> simp_all; omega)
    · have hne : m ≠ [] := by
        rintro rfl
        rcases o with _ | ⟨a, o'⟩
        · exact h0 ⟨rfl, rfl⟩
        · simp at h7
      rw [applyOps_add_front, ih o (m.drop 3) (by cases m <;> simp_all; omega)]
      simp only [Option.map_some', List.take_append_drop]
    · -- changed line: consume one from each side (when in range)
      rw [applyOps_del_front, applyOps_add_front]
      rw [ih (o.drop 1) (m.drop 1)
        (by
          have : ¬(o = [] ∧ m = []) := h0
          rcases o with _ | ⟨a, o'⟩ <;> rcases m with _ | ⟨b, m'⟩ <;>
            simp_all <;> omega)]
      simp only [Option.map_some', List.take_append_drop]

/-- The simple positional diff of the code-parser utilities (generateDiff):
one step per index up to the longer of the two line lists.  The JavaScript
branches test truthiness, so an empty original line paired with a changed
line is emitted without its "-" entry, and an index past the end of the
modified list renders as the literal text "undefined" in the changed pair. -/
def generateDiffStep (origLine modLine : Option String) : List String :=
  if origLine = modLine then ["  " ++ origLine.getD ""]
  else if jsTruthy origLine && !jsTruthy modLine then ["- " ++ jsTemplate origLine]
  else if !jsTruthy origLine && jsTruthy modLine then ["+ " ++ jsTemplate modLine]
  else ["- " ++ jsTemplate origLine, "+ " ++ jsTemplate modLine]

/-- generateDiff of the code-parser utilities: the list of diff lines
(the source joins them with newlines for display). -/
def generateDiff (original modified : String) : List String :=
  let originalLines := splitLines original
  let modifiedLines := splitLines modified
  ((List.range (max originalLines.length modifiedLines.length)).map
    (fun i => generateDiffStep originalLines[i]? modifiedLines[i]?)).flatten

/-- Apply a simple positional diff, in the sense of the round-trip property
stated by the specification: context lines keep the corresponding original
line, each "-" line consumes an original line, and each "+" line is inserted
in its place. -/
def applySimpleDiff : List String → List String → Option (List String)
  | [], [] => some []
  | [], _ :: _ => none
  | d :: ds, o =>
    if strStartsWith d "+ " then (applySimpleDiff ds o).map (fun l => strDrop d 2 :: l)
    else if strStartsWith d "- " then
      match o with
      | _ :: o' => applySimpleDiff ds o'
      | [] => none
    else
      match o with
      | a :: o' => (applySimpleDiff ds o').map (fun l => a :: l)
      | [] => none

/-- C2, amended: the round-trip property holds for the unified diff
(generateUnifiedDiff in the apply-fix tool): replacing its "-" lines by its
"+" lines against the original line list reconstructs the modified line
list exactly, for every pair of texts.  (It fails for the simple positional
generateDiff of the code-parser utilities; see the counterexample.) -/
theorem c2_unified_diff_round_trip (original modified : String) :
    applyOps (unifiedDiffOps (splitLines original) (splitLines modified))
      (splitLines original) = some (splitLines modified) :=
  unifiedDiff_roundTrip_aux
    ((splitLines original).length + (splitLines modified).length) _ _ le_rfl

/-- C2 counterexample: for original "x\n" and modified "x", the positional
generateDiff emits the lines ["  x", "- ", "+ undefined"]; replacing its
"-" lines by its "+" lines against the original yields the lines
["x", "undefined"], not the modified text's lines ["x"].  The diff of the
cited code-parser generateDiff therefore does not satisfy the round-trip
property. -/
theorem c2_counterexample :
    generateDiff "x\n" "x" = ["  x", "- ", "+ undefined"] ∧
    applySimpleDiff (generateDiff "x\n" "x") (splitLines "x\n") = some ["x", "undefined"] ∧
    applySimpleDiff (generateDiff "x\n" "x") (splitLines "x\n") ≠ some (splitLines "x") := by
  refine ⟨by decide, by decide, by decide⟩

/-!
## Regex matchers

The detection rules and the fix synthesizer use a handful of fixed regular
expressions through exec loops and first-match replacement.  Each pattern is
embedded as a deterministic matcher at a position, and a scan driver
reproduces the JavaScript global-exec loop: try the leftmost position, and
resume after the end of a match (lastIndex) or one character further on
failure.
-/

/-- A word character of the regex class \w. -/
def wordChar (c : Char) : Bool :=
  c.isAlpha || c.isDigit || c = '_'

/-- Expect one literal character and return the rest. -/
def expectChar (c : Char) : List Char → Option (List Char)
  | d :: rest => if d = c then some rest else none
  | [] => none

theorem expectChar_len {c : Char} {cs rest : List Char}
    (h : expectChar c cs = some rest) : rest.length < cs.length := by
  cases cs with
  | nil => simp [expectChar] at h
  | cons d tl =>
    by_cases hd : d = c <;> simp [expectChar, hd] at h
    subst h; simp

theorem length_dropWhile_le' (p : Char → Bool) (l : List Char) :
    (l.dropWhile p).length ≤ l.length := by
  have h := List.takeWhile_append_dropWhile p l
  have h2 : (l.takeWhile p).length + (l.dropWhile p).length = l.length := by
    rw [← List.length_append, h]
  omega

theorem isPrefixOf_length_le {a b : List Char} (h : a.isPrefixOf b) :
    a.length ≤ b.length :=
  (List.isPrefixOf_iff_prefix.mp h).length_le

/-- Matcher at a position for the patterns (\w+)! , (\w+)!! and (\w+)!\. :
a nonempty maximal word-character run followed by the literal suffix.
Backtracking to a shorter run cannot succeed, because a shorter run ends on
a word character where the suffix expects its first (non-word) character,
so the maximal run is the only candidate, as in the JavaScript engine.
Payload: the captured word (group 1). -/
def matchWordSuffixAt (suffix : List Char) (cs : List Char) :
    Option (List Char × List Char) :=
  if cs.takeWhile wordChar ≠ [] ∧ suffix.isPrefixOf (cs.dropWhile wordChar) then
    some (cs.takeWhile wordChar, (cs.dropWhile wordChar).drop suffix.length)
  else none

theorem matchWordSuffixAt_len {suffix cs a rem : List Char}
    (h : matchWordSuffixAt suffix cs = some (a, rem)) : rem.length < cs.length := by
  unfold matchWordSuffixAt at h
  split at h
  · rename_i hcond
    obtain ⟨hrun, _⟩ := hcond
    have hsplit := List.takeWhile_append_dropWhile wordChar cs
    have hlen : (cs.takeWhile wordChar).length + (cs.dropWhile wordChar).length
        = cs.length := by
      rw [← List.length_append, hsplit]
    have hpos : 0 < (cs.takeWhile wordChar).length :=
      List.length_pos.mpr hrun
    simp only [Option.some.injEq, Prod.mk.injEq] at h
    obtain ⟨_, hrem⟩ := h
    subst hrem
    have := List.length_drop suffix.length (cs.dropWhile wordChar)
    omega
  · exact Option.noConfusion h

/-- Matcher for the header useEffect\s*\(\s*\(\s*\)\s*=>\s*\{ of the
useEffect patterns; returns the rest after the opening brace. -/
def matchEffectHeadAt (cs : List Char) : Option (List Char) :=
  if ("useEffect".toList).isPrefixOf cs then
    match expectChar '(' ((cs.drop 9).dropWhile jsWs) with
    | none => none
    | some r2 =>
      match expectChar '(' (r2.dropWhile jsWs) with
      | none => none
      | some r3 =>
        match expectChar ')' (r3.dropWhile jsWs) with
        | none => none
        | some r4 =>
          match expectChar '=' (r4.dropWhile jsWs) with
          | none => none
          | some r5 =>
            match expectChar '>' r5 with
            | none => none
            | some r6 => expectChar '{' (r6.dropWhile jsWs)
  else none

theorem matchEffectHeadAt_len {cs r : List Char}
    (h : matchEffectHeadAt cs = some r) : r.length < cs.length := by
  unfold matchEffectHeadAt at h
  split at h
  · rename_i hpre
    split at h
    · exact Option.noConfusion h
    · rename_i r2 h2
      split at h
      · exact Option.noConfusion h
      · rename_i r3 h3
        split at h
        · exact Option.noConfusion h
        · rename_i r4 h4
          split at h
          · exact Option.noConfusion h
          · rename_i r5 h5
            split at h
            · exact Option.noConfusion h
            · rename_i r6 h6
              have l2 := expectChar_len h2
              have l3 := expectChar_len h3
              have l4 := expectChar_len h4
              have l5 := expectChar_len h5
              have l6 := expectChar_len h6
              have l7 := expectChar_len h
              have d1 := length_dropWhile_le' jsWs (cs.drop 9)
              have d2 := length_dropWhile_le' jsWs r2
              have d3 := length_dropWhile_le' jsWs r3
              have d4 := length_dropWhile_le' jsWs r4
              have d6 := length_dropWhile_le' jsWs r6
              have hd : (cs.drop 9).length = cs.length - 9 := List.length_drop 9 cs
              have hp : ("useEffect".toList).length ≤ cs.length := isPrefixOf_length_le hpre
              simp only [String.toList] at hp
              omega
  · exact Option.noConfusion h

/-- Matcher for the full useEffect pattern
useEffect\s*\(\s*\(\s*\)\s*=>\s*\{([^}]*(?:\{[^}]*\}[^}]*)*)\} at a
position.  The backtracking engine matches the group as everything up to
the first closing brace: the leading [^}]* stops there, the starred
alternative then requires an opening brace and fails at once, and the final
\} matches that first closing brace, so longer candidates are never tried.
The match fails when no closing brace follows.  Payload: the effect body
(group 1). -/
def matchEffectAt (cs : List Char) : Option (List Char × List Char) :=
  match matchEffectHeadAt cs with
  | none => none
  | some r =>
    match expectChar '}' (r.dropWhile (fun c => c ≠ '}')) with
    | some r2 => some (r.takeWhile (fun c => c ≠ '}'), r2)
    | none => none

theorem matchEffectAt_len {cs a rem : List Char}
    (h : matchEffectAt cs = some (a, rem)) : rem.length < cs.length := by
  unfold matchEffectAt at h
  split at h
  · exact Option.noConfusion h
  · rename_i r hr
    split at h
    · rename_i r2 hx
      simp only [Option.some.injEq, Prod.mk.injEq] at h
      obtain ⟨-, hrem⟩ := h
      subst hrem
      have hlt := matchEffectHeadAt_len hr
      have h1 := expectChar_len hx
      have h2 := length_dropWhile_le' (fun c => decide (c ≠ '}')) r
      omega
    · exact Option.noConfusion h

/-- Tail matcher for \1\. preceded by the lazy bounded gap [\s\S]{0,50}? :
try gap widths k, k+1, ... in order (lazy quantifier) for the given number
of tries — 51 tries from width 0 cover the widths 0..50 of the bounded
quantifier — and require the captured word followed by a dot. -/
def k2scan (v s : List Char) : Nat → Nat → Option (List Char)
  | 0, _ => none
  | tries + 1, k =>
    if (v ++ ['.']).isPrefixOf (s.drop k) then some ((s.drop k).drop (v.length + 1))
    else k2scan v s tries (k + 1)

theorem k2scan_len :
    ∀ (tries k : Nat) (v s rem : List Char),
      k2scan v s tries k = some rem → rem.length < s.length := by
  intro tries
  induction tries with
  | zero =>
    intro k v s rem h
    exact Option.noConfusion h
  | succ n ih =>
    intro k v s rem h
    rw [k2scan] at h
    by_cases hp : (v ++ ['.']).isPrefixOf (s.drop k)
    · simp only [if_pos hp] at h
      have hlen := isPrefixOf_length_le hp
      simp only [List.length_append, List.length_singleton, List.length_drop] at hlen
      injection h with h'
      subst h'
      simp only [List.length_drop]
      omega
    · simp only [if_neg hp] at h
      exact ih (k + 1) v s rem h

/-- The \s* before the bounded gap, greedy with backtracking: try the
maximal whitespace run first and shrink on failure. -/
def wsK2go (v after : List Char) : Nat → Option (List Char)
  | 0 => k2scan v after 51 0
  | w + 1 =>
    match k2scan v (after.drop (w + 1)) 51 0 with
    | some rem => some rem
    | none => wsK2go v after w

theorem wsK2go_len {v after rem : List Char} :
    ∀ w, wsK2go v after w = some rem → rem.length < after.length := by
  intro w
  induction w with
  | zero =>
    intro h
    exact k2scan_len 51 0 v after rem h
  | succ w ih =>
    intro h
    rw [wsK2go] at h
    split at h
    · rename_i r hr
      injection h with h'
      subst h'
      have := k2scan_len 51 0 v (after.drop (w + 1)) r hr
      have hd := List.length_drop (w + 1) after
      omega
    · exact ih h

/-- The segment \s*[\s\S]{0,50}?\1\. of the null-check-scope pattern. -/
def wsK2 (v after : List Char) : Option (List Char) :=
  wsK2go v after ((after.takeWhile jsWs).length)

theorem wsK2_len {v after rem : List Char} (h : wsK2 v after = some rem) :
    rem.length < after.length :=
  wsK2go_len _ h

/-- The segment [\s\S]*?\}\s*[\s\S]{0,50}?\1\. : the lazy leading gap
extends to each successive closing brace in order until the rest of the
pattern matches after it. -/
def ifTail (v : List Char) : Nat → List Char → Option (List Char)
  | 0, _ => none
  | fuel + 1, rest =>
    match expectChar '}' (rest.dropWhile (fun c => c ≠ '}')) with
    | none => none
    | some after =>
      match wsK2 v after with
      | some rem => some rem
      | none => ifTail v fuel after

theorem ifTail_len :
    ∀ (fuel : Nat) (v rest rem : List Char),
      ifTail v fuel rest = some rem → rem.length < rest.length := by
  intro fuel
  induction fuel with
  | zero =>
    intro v rest rem h
    exact Option.noConfusion h
  | succ n ih =>
    intro v rest rem h
    rw [ifTail] at h
    split at h
    · exact Option.noConfusion h
    · rename_i after ha
      have h1 := expectChar_len ha
      have h2 := length_dropWhile_le' (fun c => decide (c ≠ '}')) rest
      split at h
      · rename_i r hr
        injection h with h'
        subst h'
        have := wsK2_len hr
        omega
      · have := ih v after rem h
        omega

/-- Matcher at a position for the pattern
if\s*\(\s*(\w+)\s*\)\s*\{[\s\S]*?\}\s*[\s\S]{0,50}?\1\. used by the
null-reference rule.  The leading literal, whitespace runs, the captured
word and the required punctuation are deterministic (maximal munch);
the lazy and greedy gaps are resolved by ifTail in engine order.
Payload: the captured variable name (group 1). -/
def matchIfNullCheckAt (cs : List Char) : Option (List Char × List Char) :=
  match expectChar 'i' cs with
  | none => none
  | some c1 =>
    match expectChar 'f' c1 with
    | none => none
    | some r1 =>
      match expectChar '(' (r1.dropWhile jsWs) with
      | none => none
      | some r2 =>
        if (r2.dropWhile jsWs).takeWhile wordChar = [] then none
        else
          match expectChar ')'
              (((r2.dropWhile jsWs).dropWhile wordChar).dropWhile jsWs) with
          | none => none
          | some r4 =>
            match expectChar '{' (r4.dropWhile jsWs) with
            | none => none
            | some r5 =>
              match ifTail ((r2.dropWhile jsWs).takeWhile wordChar) (r5.length + 1) r5 with
              | none => none
              | some rem => some ((r2.dropWhile jsWs).takeWhile wordChar, rem)

theorem matchIfNullCheckAt_len {cs a rem : List Char}
    (h : matchIfNullCheckAt cs = some (a, rem)) : rem.length < cs.length := by
  unfold matchIfNullCheckAt at h
  split at h
  · exact Option.noConfusion h
  · rename_i c1 hc1
    split at h
    · exact Option.noConfusion h
    · rename_i r1 hr1
      split at h
      · exact Option.noConfusion h
      · rename_i r2 hr2
        split at h
        · exact Option.noConfusion h
        · split at h
          · exact Option.noConfusion h
          · rename_i r4 hr4
            split at h
            · exact Option.noConfusion h
            · rename_i r5 hr5
              split at h
              · exact Option.noConfusion h
              · rename_i r6 hr6
                simp only [Option.some.injEq, Prod.mk.injEq] at h
                obtain ⟨-, hrem⟩ := h
                subst hrem
                have l1 := expectChar_len hc1
                have l2 := expectChar_len hr1
                have l3 := expectChar_len hr2
                have l4 := expectChar_len hr4
                have l5 := expectChar_len hr5
                have l6 := ifTail_len (r5.length + 1)
                  ((r2.dropWhile jsWs).takeWhile wordChar) r5 r6 hr6
                have d1 := length_dropWhile_le' jsWs r1
                have d4 := length_dropWhile_le' jsWs r4
                have d5 :=
                  length_dropWhile_le' jsWs ((r2.dropWhile jsWs).dropWhile wordChar)
                have d6 := length_dropWhile_le' wordChar (r2.dropWhile jsWs)
                have d7 := length_dropWhile_le' jsWs r2
                omega

/-- Driver of a JavaScript while-exec loop over a global regex: scan left
to right, and on a match record (match.index, captured payload, matched
text) and resume at lastIndex (just after the match); on failure advance
one position.  Every iteration consumes at least one character — a
successful match consumes one by the consumption lemmas proved above for
each matcher, a failure advances by one — so a fuel of content length plus
one covers every iteration and the zero-fuel branch is never reached when
the driver is called that way. -/
def execScan {α : Type} (matchAt : List Char → Option (α × List Char)) :
    Nat → List Char → Nat → List (Nat × α × List Char)
  | 0, _, _ => []
  | fuel + 1, cs, pos =>
    match matchAt cs with
    | some (a, rem) =>
      (pos, a, cs.take (cs.length - rem.length)) ::
        execScan matchAt fuel rem (pos + (cs.length - rem.length))
    | none =>
      match cs with
      | [] => []
      | _ :: rest => execScan matchAt fuel rest (pos + 1)

/-!
## Detection rules

The two rule functions the claims cite: analyzeReactMemoryLeaks (memory-leak
detection for react-native/web) and detectNullReferences (logic-error
detection).  The uuid of each emitted issue is drawn from a stream
ids : Nat → String in call order, and every detectedAt timestamp is the
supplied now — the two nondeterministic inputs of the otherwise pure rules.
-/

/-- The issue record built by the memory-leak rules (MemoryLeakInfo).
The retainCycle field only used by the Swift rules is not modelled. -/
structure MemoryLeakInfo where
  id : String
  type : String
  severity : String
  title : String
  description : String
  file : String
  line : Int
  code : Option String := none
  objectType : String
  suggestion : String
  detectedAt : String
deriving DecidableEq, Repr

/-- The issue record built by the logic-error rules (LogicErrorInfo). -/
structure LogicErrorInfo where
  id : String
  type : String
  severity : String
  title : String
  description : String
  file : String
  line : Int
  code : Option String := none
  context : String
  possibleCause : String
  reproducibility : String
  suggestion : String
  detectedAt : String
deriving DecidableEq, Repr

/-- The useEffect matches of a content, in exec order. -/
def effectMatches (content : List Char) : List (Nat × List Char × List Char) :=
  execScan matchEffectAt (content.length + 1) content 0

/-- The while loop over the useEffect pattern in analyzeReactMemoryLeaks:
for each match, an issue is pushed when the effect body contains one of the
subscription signatures and no return. -/
def effectLoop (filePath : String) (content : List Char) (ids : Nat → String)
    (now : String) :
    List (Nat × List Char × List Char) → Nat → List MemoryLeakInfo × Nat
  | [], k => ([], k)
  | (idx, body, _) :: rest, k =>
    let effectBody : String := ⟨body⟩
    let hasCleanup := includesStr effectBody "return"
    let lineNum : Int := (countNewlinesBefore content idx : Int) + 1
    let needsCleanup :=
      includesStr effectBody "addEventListener" ||
      includesStr effectBody "subscribe" ||
      includesStr effectBody "setInterval" ||
      includesStr effectBody "setTimeout" ||
      includesStr effectBody "WebSocket"
    if needsCleanup && !hasCleanup then
      let objectType :=
        if includesStr effectBody "addEventListener" then "EventListener"
        else if includesStr effectBody "subscribe" then "Subscription"
        else if includesStr effectBody "setInterval" then "Interval"
        else if includesStr effectBody "setTimeout" then "Timeout"
        else if includesStr effectBody "WebSocket" then "WebSocket"
        else "Unknown"
      let issue : MemoryLeakInfo := {
        id := ids k
        type := "memory_leak"
        severity := "high"
        title := "useEffect missing cleanup for " ++ objectType
        description := "useEffect creates " ++ objectType ++ " but does not clean it up"
        file := filePath
        line := lineNum
        code := some (substrTo effectBody 100)
        objectType := objectType
        suggestion := "Add return function to clean up " ++ objectType
        detectedAt := now }
      let p := effectLoop filePath content ids now rest (k + 1)
      (issue :: p.1, p.2)
    else effectLoop filePath content ids now rest k

/-- analyzeReactMemoryLeaks: the useEffect-without-cleanup loop, then the
whole-file addEventListener/removeEventListener check, then the whole-file
setInterval/clearInterval check. -/
def analyzeReactMemoryLeaks (filePath content : String) (lines : List String)
    (ids : Nat → String) (now : String) : List MemoryLeakInfo :=
  let p := effectLoop filePath content.toList ids now
    (effectMatches content.toList) 0
  let listenerPart : List MemoryLeakInfo × Nat :=
    if includesStr content "addEventListener" &&
        !includesStr content "removeEventListener" then
      let lineNum : Int := jsFindIndex (fun l => includesStr l "addEventListener") lines + 1
      ([{ id := ids p.2
          type := "memory_leak"
          severity := "high"
          title := "Event listener not removed"
          description := "Event listener is added but never removed"
          file := filePath
          line := lineNum
          code := (jsGetLine lines (lineNum - 1)).map jsTrim
          objectType := "EventListener"
          suggestion := "Add removeEventListener in cleanup function"
          detectedAt := now }], p.2 + 1)
    else ([], p.2)
  let intervalPart : List MemoryLeakInfo :=
    if includesStr content "setInterval" && !includesStr content "clearInterval" then
      let lineNum : Int := jsFindIndex (fun l => includesStr l "setInterval") lines + 1
      [{ id := ids listenerPart.2
         type := "memory_leak"
         severity := "high"
         title := "Interval not cleared"
         description := "setInterval is used but interval is never cleared"
         file := filePath
         line := lineNum
         code := (jsGetLine lines (lineNum - 1)).map jsTrim
         objectType := "Interval"
         suggestion := "Store interval ID and call clearInterval in cleanup"
         detectedAt := now }]
    else []
  p.1 ++ listenerPart.1 ++ intervalPart

/-- Matches of (\w+)!\. in exec order. -/
def forceUnwrapDotMatches (content : List Char) : List (Nat × List Char × List Char) :=
  execScan (matchWordSuffixAt ['!', '.']) (content.length + 1) content 0

/-- Matches of (\w+)! in exec order. -/
def forceUnwrapMatches (content : List Char) : List (Nat × List Char × List Char) :=
  execScan (matchWordSuffixAt ['!']) (content.length + 1) content 0

/-- Matches of (\w+)!! in exec order. -/
def notNullMatches (content : List Char) : List (Nat × List Char × List Char) :=
  execScan (matchWordSuffixAt ['!', '!']) (content.length + 1) content 0

/-- Matches of the null-check-scope pattern in exec order. -/
def ifNullCheckMatches (content : List Char) : List (Nat × List Char × List Char) :=
  execScan matchIfNullCheckAt (content.length + 1) content 0

/-- The web force-unwrap loop of detectNullReferences: one issue per
(\w+)!\. match. -/
def forceUnwrapWebLoop (filePath : String) (content : List Char)
    (lines : List String) (ids : Nat → String) (now : String) :
    List (Nat × List Char × List Char) → Nat → List LogicErrorInfo × Nat
  | [], k => ([], k)
  | (idx, v, _) :: rest, k =>
    let lineNum : Int := (countNewlinesBefore content idx : Int) + 1
    let issue : LogicErrorInfo := {
      id := ids k
      type := "null_reference"
      severity := "medium"
      title := "Non-null assertion operator"
      description := "Force unwrap of " ++ (⟨v⟩ : String) ++ " may cause runtime error if null"
      file := filePath
      line := lineNum
      code := (jsGetLine lines (lineNum - 1)).map jsTrim
      context := "Force unwrap"
      possibleCause := "Value may be null at runtime despite assertion"
      reproducibility := "intermittent"
      suggestion := "Use optional chaining (?.) or proper null check"
      detectedAt := now }
    let p := forceUnwrapWebLoop filePath content lines ids now rest (k + 1)
    (issue :: p.1, p.2)

/-- The null-check-scope loop of detectNullReferences: an issue per match
whose full matched text contains neither return nor throw. -/
def nullCheckScopeLoop (filePath : String) (content : List Char)
    (ids : Nat → String) (now : String) :
    List (Nat × List Char × List Char) → Nat → List LogicErrorInfo × Nat
  | [], k => ([], k)
  | (idx, v, full) :: rest, k =>
    let lineNum : Int := (countNewlinesBefore content idx : Int) + 1
    if !includesStr (⟨full⟩ : String) "return" && !includesStr (⟨full⟩ : String) "throw" then
      let issue : LogicErrorInfo := {
        id := ids k
        type := "null_reference"
        severity := "low"
        title := "Potential unsafe access after null check"
        description := (⟨v⟩ : String) ++ " accessed outside of null-check block"
        file := filePath
        line := lineNum
        context := "Null check scope"
        possibleCause := "Variable may be null when accessed outside if block"
        reproducibility := "always"
        suggestion := "Ensure access is within null-check block or add guard clause"
        detectedAt := now }
      let p := nullCheckScopeLoop filePath content ids now rest (k + 1)
      (issue :: p.1, p.2)
    else nullCheckScopeLoop filePath content ids now rest k

/-- The iOS force-unwrap loop of detectNullReferences: one issue per
(\w+)! match whose variable is not in the skip list. -/
def forceUnwrapIosLoop (filePath : String) (content : List Char)
    (lines : List String) (ids : Nat → String) (now : String) :
    List (Nat × List Char × List Char) → Nat → List LogicErrorInfo × Nat
  | [], k => ([], k)
  | (idx, v, _) :: rest, k =>
    if (["try", "as", "NSObject"] : List String).contains ⟨v⟩ then
      forceUnwrapIosLoop filePath content lines ids now rest k
    else
      let lineNum : Int := (countNewlinesBefore content idx : Int) + 1
      let issue : LogicErrorInfo := {
        id := ids k
        type := "null_reference"
        severity := "medium"
        title := "Force unwrap of optional"
        description := "Force unwrap of " ++ (⟨v⟩ : String) ++ " may cause crash if nil"
        file := filePath
        line := lineNum
        code := (jsGetLine lines (lineNum - 1)).map jsTrim
        context := "Force unwrap"
        possibleCause := "Optional value may be nil at runtime"
        reproducibility := "intermittent"
        suggestion := "Use if let, guard let, or nil coalescing (??) instead"
        detectedAt := now }
      let p := forceUnwrapIosLoop filePath content lines ids now rest (k + 1)
      (issue :: p.1, p.2)

/-- The Android not-null-assertion loop of detectNullReferences: one issue
per (\w+)!! match. -/
def notNullAndroidLoop (filePath : String) (content : List Char)
    (lines : List String) (ids : Nat → String) (now : String) :
    List (Nat × List Char × List Char) → Nat → List LogicErrorInfo × Nat
  | [], k => ([], k)
  | (idx, v, _) :: rest, k =>
    let lineNum : Int := (countNewlinesBefore content idx : Int) + 1
    let issue : LogicErrorInfo := {
      id := ids k
      type := "null_reference"
      severity := "medium"
      title := "Not-null assertion operator"
      description := "Not-null assertion on " ++ (⟨v⟩ : String) ++ " may throw NPE"
      file := filePath
      line := lineNum
      code := (jsGetLine lines (lineNum - 1)).map jsTrim
      context := "Not-null assertion"
      possibleCause := "Value may be null at runtime"
      reproducibility := "intermittent"
      suggestion := "Use safe call (?.) or null check"
      detectedAt := now }
    let p := notNullAndroidLoop filePath content lines ids now rest (k + 1)
    (issue :: p.1, p.2)

/-- detectNullReferences.  The web branch runs the force-unwrap loop, the
optional-chaining loop whose body is empty in the source (it emits
nothing), and the null-check-scope loop; the iOS branch the Swift
force-unwrap loop with its skip list; the Android branch the not-null
assertion loop. -/
def detectNullReferences (filePath content platform : String)
    (ids : Nat → String) (now : String) : List LogicErrorInfo :=
  let lines := splitLines content
  let webPart : List LogicErrorInfo × Nat :=
    if platform = "react-native" || platform = "web" then
      let p1 := forceUnwrapWebLoop filePath content.toList lines ids now
        (forceUnwrapDotMatches content.toList) 0
      let p2 := nullCheckScopeLoop filePath content.toList ids now
        (ifNullCheckMatches content.toList) p1.2
      (p1.1 ++ p2.1, p2.2)
    else ([], 0)
  let iosPart : List LogicErrorInfo × Nat :=
    if platform = "ios" then
      forceUnwrapIosLoop filePath content.toList lines ids now
        (forceUnwrapMatches content.toList) webPart.2
    else ([], webPart.2)
  let androidPart : List LogicErrorInfo :=
    if platform = "android" then
      (notNullAndroidLoop filePath content.toList lines ids now
        (notNullMatches content.toList) iosPart.2).1
    else []
  webPart.1 ++ iosPart.1 ++ androidPart

/-!
## Fix synthesizer (memory-leak branch)
-/

/-- Matcher at a position for the pattern \}\s*,\s*\[ used by the
first-occurrence replacements in generateMemoryLeakFix; returns the rest
after the matched text. -/
def matchBrCommaAt (cs : List Char) : Option (List Char) :=
  match expectChar '}' cs with
  | none => none
  | some r1 =>
    match expectChar ',' (r1.dropWhile jsWs) with
    | none => none
    | some r2 => expectChar '[' (r2.dropWhile jsWs)

/-- JavaScript String.prototype.replace with a non-global regex: replace
the leftmost match (the matcher returns the rest after the matched text)
by the replacement; no match leaves the string unchanged. -/
def replaceFirstMatch (matchAt : List Char → Option (List Char))
    (repl : List Char) : List Char → List Char
  | [] => []
  | c :: rest =>
    match matchAt (c :: rest) with
    | some rem => repl ++ rem
    | none => c :: replaceFirstMatch matchAt repl rest

/-- generateMemoryLeakFix.  The source takes the issue and consults only
its title; the returned confidence is the constant 85.  In the web branch
the setInterval case first applies the replacement of
/(const\s+\w+\s*=\s*setInterval)/ by the unchanged capture, which is the
identity.  Returns none when no rewrite applied (suggested equals the
original). -/
def generateMemoryLeakFix (title platform originalCode : String) :
    Option (String × String × Int) :=
  let s1 : String :=
    if (platform = "react-native" || platform = "web") &&
        includesStr title "useEffect" then
      if includesStr originalCode "addEventListener" then
        let a : String := ⟨replaceFirstMatch matchEffectHeadAt
          ("useEffect(() => \x7b\n    const abortController = new AbortController();").toList
          originalCode.toList⟩
        ⟨replaceFirstMatch matchBrCommaAt
          ("\n    return () => \x7b\n      abortController.abort();\n      // Cleanup event listeners here\n    \x7d;\n  \x7d, [").toList
          a.toList⟩
      else if includesStr originalCode "setInterval" then
        if !includesStr originalCode "return" then
          ⟨replaceFirstMatch matchBrCommaAt
            ("\n    return () => clearInterval(intervalId);\n  \x7d, [").toList
            originalCode.toList⟩
        else originalCode
      else if includesStr originalCode "subscribe" then
        ⟨replaceFirstMatch matchBrCommaAt
          ("\n    return () => subscription.unsubscribe();\n  \x7d, [").toList
          originalCode.toList⟩
      else originalCode
    else originalCode
  let s2 : String :=
    if platform = "ios" then
      let a : String :=
        if includesStr title "NotificationCenter" &&
            !includesStr originalCode "removeObserver" then
          originalCode ++ "\n\n    deinit \x7b\n        NotificationCenter.default.removeObserver(self)\n    \x7d"
        else s1
      if includesStr title "Timer" && !includesStr originalCode "invalidate" then
        originalCode ++ "\n\n    deinit \x7b\n        timer?.invalidate()\n        timer = nil\n    \x7d"
      else a
    else s1
  let s3 : String :=
    if platform = "flutter" then
      let a : String :=
        if includesStr title "StreamSubscription" &&
            !includesStr originalCode "cancel" then
          originalCode ++ "\n\n  @override\n  void dispose() \x7b\n    subscription?.cancel();\n    super.dispose();\n  \x7d"
        else s2
      if includesStr title "AnimationController" &&
          !includesStr originalCode "dispose" then
        originalCode ++ "\n\n  @override\n  void dispose() \x7b\n    controller.dispose();\n    super.dispose();\n  \x7d"
      else a
    else s2
  if s3 = originalCode then none else some (originalCode, s3, 85)

/-!
## Determinism of the rules up to generated ids and timestamps
-/

/-- Forget the generated uuid and the detection timestamp of a memory-leak
issue; what remains is computed from the file content alone. -/
def eraseM (i : MemoryLeakInfo) : MemoryLeakInfo :=
  { i with id := "", detectedAt := "" }

/-- Forget the generated uuid and the detection timestamp of a logic-error
issue. -/
def eraseL (i : LogicErrorInfo) : LogicErrorInfo :=
  { i with id := "", detectedAt := "" }

theorem effectLoop_erase (fp : String) (c : List Char)
    (g g' : Nat → String) (t t' : String) :
    ∀ (ms : List (Nat × List Char × List Char)) (k k' : Nat),
      ((effectLoop fp c g t ms k).1).map eraseM
        = ((effectLoop fp c g' t' ms k').1).map eraseM := by
  intro ms
  induction ms with
  | nil => intro k k'; simp [effectLoop]
  | cons hd rest ih =>
    intro k k'
    obtain ⟨idx, body, full⟩ := hd
    simp only [effectLoop]
    split
    · simp only [List.map_cons, eraseM]
      rw [ih (k + 1) (k' + 1)]
    · exact ih k k'

theorem analyzeReactMemoryLeaks_erase (fp c : String) (lines : List String)
    (g g' : Nat → String) (t t' : String) :
    (analyzeReactMemoryLeaks fp c lines g t).map eraseM
      = (analyzeReactMemoryLeaks fp c lines g' t').map eraseM := by
  unfold analyzeReactMemoryLeaks
  have he := effectLoop_erase fp c.toList g g' t t' (effectMatches c.toList) 0 0
  simp only [String.toList] at he
  by_cases h1 : (includesStr c "addEventListener" && !includesStr c "removeEventListener") = true <;>
    by_cases h2 : (includesStr c "setInterval" && !includesStr c "clearInterval") = true <;>
      simp [h1, h2, eraseM, he]

theorem forceUnwrapWebLoop_erase (fp : String) (c : List Char)
    (lines : List String) (g g' : Nat → String) (t t' : String) :
    ∀ (ms : List (Nat × List Char × List Char)) (k k' : Nat),
      ((forceUnwrapWebLoop fp c lines g t ms k).1).map eraseL
        = ((forceUnwrapWebLoop fp c lines g' t' ms k').1).map eraseL := by
  intro ms
  induction ms with
  | nil => intro k k'; simp [forceUnwrapWebLoop]
  | cons hd rest ih =>
    intro k k'
    obtain ⟨idx, v, full⟩ := hd
    simp only [forceUnwrapWebLoop, List.map_cons, eraseL]
    rw [ih (k + 1) (k' + 1)]

theorem nullCheckScopeLoop_erase (fp : String) (c : List Char)
    (g g' : Nat → String) (t t' : String) :
    ∀ (ms : List (Nat × List Char × List Char)) (k k' : Nat),
      ((nullCheckScopeLoop fp c g t ms k).1).map eraseL
        = ((nullCheckScopeLoop fp c g' t' ms k').1).map eraseL := by
  intro ms
  induction ms with
  | nil => intro k k'; simp [nullCheckScopeLoop]
  | cons hd rest ih =>
    intro k k'
    obtain ⟨idx, v, full⟩ := hd
    simp only [nullCheckScopeLoop]
    split
    · simp only [List.map_cons, eraseL]
      rw [ih (k + 1) (k' + 1)]
    · exact ih k k'

theorem forceUnwrapIosLoop_erase (fp : String) (c : List Char)
    (lines : List String) (g g' : Nat → String) (t t' : String) :
    ∀ (ms : List (Nat × List Char × List Char)) (k k' : Nat),
      ((forceUnwrapIosLoop fp c lines g t ms k).1).map eraseL
        = ((forceUnwrapIosLoop fp c lines g' t' ms k').1).map eraseL := by
  intro ms
  induction ms with
  | nil => intro k k'; simp [forceUnwrapIosLoop]
  | cons hd rest ih =>
    intro k k'
    obtain ⟨idx, v, full⟩ := hd
    simp only [forceUnwrapIosLoop]
    split
    · exact ih k k'
    · simp only [List.map_cons, eraseL]
      rw [ih (k + 1) (k' + 1)]

theorem notNullAndroidLoop_erase (fp : String) (c : List Char)
    (lines : List String) (g g' : Nat → String) (t t' : String) :
    ∀ (ms : List (Nat × List Char × List Char)) (k k' : Nat),
      ((notNullAndroidLoop fp c lines g t ms k).1).map eraseL
        = ((notNullAndroidLoop fp c lines g' t' ms k').1).map eraseL := by
  intro ms
  induction ms with
  | nil => intro k k'; simp [notNullAndroidLoop]
  | cons hd rest ih =>
    intro k k'
    obtain ⟨idx, v, full⟩ := hd
    simp only [notNullAndroidLoop, List.map_cons, eraseL]
    rw [ih (k + 1) (k' + 1)]

theorem detectNullReferences_erase (fp c platform : String)
    (g g' : Nat → String) (t t' : String) :
    (detectNullReferences fp c platform g t).map eraseL
      = (detectNullReferences fp c platform g' t').map eraseL := by
  unfold detectNullReferences
  by_cases h1 : platform = "react-native"
  · subst h1
    simp only [String.reduceEq, decide_True, decide_False, Bool.true_or, Bool.false_or,
      Bool.or_true, Bool.or_false, eq_self_iff_true, if_true, if_false, ite_true,
      ite_false, reduceIte, List.append_nil, List.nil_append, List.map_append]
    rw [forceUnwrapWebLoop_erase fp c.toList (splitLines c) g g' t t'
        (forceUnwrapDotMatches c.toList) 0 0,
      nullCheckScopeLoop_erase fp c.toList g g' t t' (ifNullCheckMatches c.toList)
        (forceUnwrapWebLoop fp c.toList (splitLines c) g t
          (forceUnwrapDotMatches c.toList) 0).2
        (forceUnwrapWebLoop fp c.toList (splitLines c) g' t'
          (forceUnwrapDotMatches c.toList) 0).2]
  · by_cases h2 : platform = "web"
    · subst h2
      simp only [String.reduceEq, decide_True, decide_False, Bool.true_or, Bool.false_or,
        Bool.or_true, Bool.or_false, eq_self_iff_true, if_true, if_false, ite_true,
        ite_false, reduceIte, List.append_nil, List.nil_append, List.map_append]
      rw [forceUnwrapWebLoop_erase fp c.toList (splitLines c) g g' t t'
          (forceUnwrapDotMatches c.toList) 0 0,
        nullCheckScopeLoop_erase fp c.toList g g' t t' (ifNullCheckMatches c.toList)
          (forceUnwrapWebLoop fp c.toList (splitLines c) g t
            (forceUnwrapDotMatches c.toList) 0).2
          (forceUnwrapWebLoop fp c.toList (splitLines c) g' t'
            (forceUnwrapDotMatches c.toList) 0).2]
    · by_cases h3 : platform = "ios"
      · subst h3
        simp only [String.reduceEq, decide_True, decide_False, Bool.true_or, Bool.false_or,
          Bool.or_true, Bool.or_false, Bool.or_self, eq_self_iff_true, if_true, if_false,
          ite_true, ite_false, reduceIte, Bool.false_eq_true, List.append_nil,
          List.nil_append, List.map_append]
        rw [forceUnwrapIosLoop_erase fp c.toList (splitLines c) g g' t t'
            (forceUnwrapMatches c.toList) 0 0]
      · by_cases h4 : platform = "android"
        · subst h4
          simp only [String.reduceEq, decide_True, decide_False, Bool.true_or, Bool.false_or,
            Bool.or_true, Bool.or_false, Bool.or_self, eq_self_iff_true, if_true, if_false,
            ite_true, ite_false, reduceIte, Bool.false_eq_true, List.append_nil,
            List.nil_append, List.map_append]
          rw [notNullAndroidLoop_erase fp c.toList (splitLines c) g g' t t'
              (notNullMatches c.toList) 0 0]
        · simp [h1, h2, h3, h4]

/-- C8: the detection rules are deterministic up to generated ids and
timestamps: for every content (and platform), two runs of
detectNullReferences and of analyzeReactMemoryLeaks with different uuid
streams and clock values agree after erasing the id and detectedAt fields —
in particular they emit the same issue kinds, the same line numbers and the
same count. -/
theorem c8_detection_determinism (filePath content platform : String)
    (ids1 ids2 : Nat → String) (now1 now2 : String) :
    (detectNullReferences filePath content platform ids1 now1).map eraseL
      = (detectNullReferences filePath content platform ids2 now2).map eraseL ∧
    (analyzeReactMemoryLeaks filePath content (splitLines content) ids1 now1).map eraseM
      = (analyzeReactMemoryLeaks filePath content (splitLines content) ids2 now2).map eraseM ∧
    (detectNullReferences filePath content platform ids1 now1).length
      = (detectNullReferences filePath content platform ids2 now2).length ∧
    (analyzeReactMemoryLeaks filePath content (splitLines content) ids1 now1).length
      = (analyzeReactMemoryLeaks filePath content (splitLines content) ids2 now2).length := by
  refine ⟨detectNullReferences_erase filePath content platform ids1 ids2 now1 now2,
    analyzeReactMemoryLeaks_erase filePath content (splitLines content) ids1 ids2 now1 now2,
    ?_, ?_⟩
  · have h := congrArg List.length
      (detectNullReferences_erase filePath content platform ids1 ids2 now1 now2)
    simpa using h
  · have h := congrArg List.length
      (analyzeReactMemoryLeaks_erase filePath content (splitLines content) ids1 ids2 now1 now2)
    simpa using h

/-- C7: on a file whose content is
useEffect(() => \x7b const s = api.subscribe(); \x7d, []) with no return in
the effect body, React memory-leak detection yields exactly one issue, of
kind memory_leak, at line 1 (the line of the useEffect call), titled for the
missing Subscription cleanup; and the memory-leak fix synthesized from that
issue keeps the content as originalCode and produces a suggestedCode
containing the cleanup return () => subscription.unsubscribe(); while the
originalCode contains no unsubscribe call. -/
theorem c7_useEffect_subscribe_scenario (ids : Nat → String) (now : String) :
    ((analyzeReactMemoryLeaks "App.tsx"
        "useEffect(() => \x7b const s = api.subscribe(); \x7d, [])"
        (splitLines "useEffect(() => \x7b const s = api.subscribe(); \x7d, [])")
        ids now).map (fun i => (i.type, i.line, i.title))
      = [("memory_leak", 1, "useEffect missing cleanup for Subscription")]) ∧
    (generateMemoryLeakFix "useEffect missing cleanup for Subscription" "web"
        "useEffect(() => \x7b const s = api.subscribe(); \x7d, [])").isSome = true ∧
    ((generateMemoryLeakFix "useEffect missing cleanup for Subscription" "web"
        "useEffect(() => \x7b const s = api.subscribe(); \x7d, [])").map
      (fun r => (includesStr r.2.1 "return () => subscription.unsubscribe();",
        includesStr r.1 "unsubscribe",
        r.1, r.2.2)))
      = some (true, false,
        "useEffect(() => \x7b const s = api.subscribe(); \x7d, [])", 85) := by
  refine ⟨?_, by decide, by decide⟩
  have hfac : ∀ l : List MemoryLeakInfo,
      l.map (fun i => (i.type, i.line, i.title))
        = (l.map eraseM).map (fun i => (i.type, i.line, i.title)) := by
    intro l
    rw [List.map_map]
    rfl
  rw [hfac, analyzeReactMemoryLeaks_erase "App.tsx"
    "useEffect(() => \x7b const s = api.subscribe(); \x7d, [])"
    (splitLines "useEffect(() => \x7b const s = api.subscribe(); \x7d, [])")
    ids (fun _ => "") now "", ← hfac]
  decide

/-!
## Remediation data model, filesystem and store

FixSuggestion / FixConfirmation / FixApplication / StoredFix mirror the
repository's types; the impact, alternatives and derived diff fields of a
FixSuggestion are presentation the apply/rollback logic never reads and are
not modelled.  The status field holds the FixStatus union value as a
string: pending, confirmed, rejected, applied or failed (the type has no
rolled_back member).  The filesystem is an association list from path to
content; the fixes list models the JSON fixes file of the store. -/

structure FixSuggestion where
  id : String
  issueId : String
  title : String
  description : String
  confidence : Int
  file : String
  line : Int
  originalCode : String
  suggestedCode : String
  status : String
  createdAt : String
  confirmedAt : Option String := none
  appliedAt : Option String := none
deriving DecidableEq, Repr

structure FixConfirmation where
  fixId : String
  action : String
  modifiedCode : Option String := none
  reason : Option String := none
  confirmedAt : String
deriving DecidableEq, Repr

structure FixApplication where
  fixId : String
  success : Bool
  backupPath : Option String := none
  error : Option String := none
  appliedAt : String
deriving DecidableEq, Repr

structure StoredFix where
  fix : FixSuggestion
  confirmation : Option FixConfirmation := none
  application : Option FixApplication := none
  projectPath : String
  createdAt : String
  updatedAt : String
deriving DecidableEq, Repr

/-- The filesystem and the fix store. -/
structure SysState where
  fs : List (String × String)
  fixes : List StoredFix
deriving DecidableEq, Repr

/-- The nondeterministic inputs of one tool call: the clock (ISO string and
milliseconds) and whether the backup write or the main file write throws. -/
structure Env where
  now : String
  nowMs : Nat
  backupFails : Bool := false
  writeFails : Bool := false
  writeErrMsg : String := ""
deriving DecidableEq, Repr

def fsRead (fs : List (String × String)) (p : String) : Option String :=
  (fs.find? (fun e => e.1 = p)).map (fun e => e.2)

def fsWrite : List (String × String) → String → String → List (String × String)
  | [], p, c => [(p, c)]
  | e :: rest, p, c => if e.1 = p then (e.1, c) :: rest else e :: fsWrite rest p c

theorem fsRead_fsWrite_same (fs : List (String × String)) (p c : String) :
    fsRead (fsWrite fs p c) p = some c := by
  induction fs with
  | nil => simp [fsRead, fsWrite, List.find?]
  | cons e rest ih =>
    by_cases h : e.1 = p
    · simp [fsRead, fsWrite, h, List.find?]
    · simpa [fsRead, fsWrite, h, List.find?] using ih

theorem fsRead_fsWrite_other (fs : List (String × String)) (p c q : String)
    (h : q ≠ p) : fsRead (fsWrite fs p c) q = fsRead fs q := by
  induction fs with
  | nil => simp [fsRead, fsWrite, List.find?, Ne.symm h]
  | cons e rest ih =>
    by_cases he : e.1 = p
    · subst he
      simp [fsRead, fsWrite, List.find?, Ne.symm h]
    · by_cases hq : e.1 = q <;> simp_all [fsRead, fsWrite, List.find?]

/-- Update the first element satisfying the predicate (the store mutates
the record that Array.prototype.find returned). -/
def replaceFirst {α : Type} (p : α → Bool) (g : α → α) : List α → List α
  | [] => []
  | a :: rest => if p a then g a :: rest else a :: replaceFirst p g rest

theorem find?_replaceFirst {α : Type} (p : α → Bool) (g : α → α)
    (hp : ∀ a, p a → p (g a)) :
    ∀ l : List α, (replaceFirst p g l).find? p = (l.find? p).map g := by
  intro l
  induction l with
  | nil => simp [replaceFirst]
  | cons a rest ih =>
    by_cases h : p a
    · simp [replaceFirst, h, List.find?_cons_of_pos, hp a h]
    · simp [replaceFirst, h, List.find?_cons_of_neg, ih]

theorem mem_replaceFirst {α : Type} {p : α → Bool} {g : α → α} {b : α} :
    ∀ {l : List α}, b ∈ replaceFirst p g l → b ∈ l ∨ ∃ a ∈ l, p a ∧ b = g a := by
  intro l
  induction l with
  | nil => intro h; simp [replaceFirst] at h
  | cons a rest ih =>
    intro h
    by_cases hp : p a
    · simp only [replaceFirst, if_pos hp, List.mem_cons] at h
      rcases h with h | h
      · exact Or.inr ⟨a, List.mem_cons_self a rest, hp, h⟩
      · exact Or.inl (List.mem_cons_of_mem a h)
    · simp only [replaceFirst, if_neg hp, List.mem_cons] at h
      rcases h with h | h
      · exact Or.inl (h ▸ List.mem_cons_self a rest)
      · rcases ih h with h' | ⟨x, hx, hpx, hbx⟩
        · exact Or.inl (List.mem_cons_of_mem a h')
        · exact Or.inr ⟨x, List.mem_cons_of_mem a hx, hpx, hbx⟩

/-!
## Path helpers (Node.js path.dirname / path.basename / path.join)
-/

/-- Split a character list at its last occurrence of the separator:
the part before and the part after. -/
def splitLastChar (sep : Char) : List Char → Option (List Char × List Char)
  | [] => none
  | c :: cs =>
    match splitLastChar sep cs with
    | some (d, b) => some (c :: d, b)
    | none => if c = sep then some ([], cs) else none

theorem splitLastChar_lengths {sep : Char} :
    ∀ {cs d b : List Char}, splitLastChar sep cs = some (d, b) →
      cs.length = d.length + 1 + b.length := by
  intro cs
  induction cs with
  | nil => intro d b h; exact Option.noConfusion h
  | cons c rest ih =>
    intro d b h
    rw [splitLastChar] at h
    split at h
    · rename_i d' b' hd
      simp only [Option.some.injEq, Prod.mk.injEq] at h
      obtain ⟨hd1, hb1⟩ := h
      subst hd1; subst hb1
      have := ih hd
      simp [this]
      omega
    · split at h
      · simp only [Option.some.injEq, Prod.mk.injEq] at h
        obtain ⟨hd1, hb1⟩ := h
        subst hd1; subst hb1
        simp
        omega
      · exact Option.noConfusion h

def jsDirname (f : String) : String :=
  match splitLastChar '/' f.toList with
  | some (d, _) => if d = [] then "/" else ⟨d⟩
  | none => "."

def jsBasename (f : String) : String :=
  match splitLastChar '/' f.toList with
  | some (_, b) => ⟨b⟩
  | none => f

def jsJoin (a b : String) : String := a ++ "/" ++ b

def jsExtname (p : String) : String :=
  match splitLastChar '.' (jsBasename p).toList with
  | some (d, b) => if d = [] then "" else ⟨'.' :: b⟩
  | none => ""

/-- The timestamped backup path the apply tool writes next to the target
file: dirname/.test-genie-backups/basename.now.bak . -/
def backupPathFor (file : String) (nowMs : Nat) : String :=
  jsJoin (jsJoin (jsDirname file) ".test-genie-backups")
    (jsBasename file ++ "." ++ Nat.repr nowMs ++ ".bak")

theorem backupPathFor_length (file : String) (nowMs : Nat) :
    file.length < (backupPathFor file nowMs).length := by
  have hmk : ∀ l : List Char, (String.mk l).length = l.length := fun l => rfl
  have hf : file.length = file.toList.length := rfl
  have h1 : ("/" : String).length = 1 := rfl
  have h19 : (".test-genie-backups" : String).length = 19 := rfl
  have h4 : (".bak" : String).length = 4 := rfl
  have hdot : ("." : String).length = 1 := rfl
  unfold backupPathFor jsJoin jsDirname jsBasename
  cases h : splitLastChar '/' file.toList with
  | none =>
    simp only [String.length_append]
    simp only [hmk, h1, h19, h4, hdot, hf, List.length_cons, List.length_nil,
      List.length_singleton]
    omega
  | some db =>
    obtain ⟨d, b⟩ := db
    have hdb := splitLastChar_lengths h
    have hdb2 : file.data.length = d.length + 1 + b.length := hdb
    by_cases hd : d = []
    · subst hd
      simp only [if_pos rfl, String.length_append]
      simp only [hmk, h1, h19, h4, hdot, hf, if_true, List.length_cons,
        List.length_nil, List.length_singleton]
      simp only [List.length_nil] at hdb2
      omega
    · simp only [if_neg hd, String.length_append]
      simp only [hmk, h1, h19, h4, hdot, hf, if_true, List.length_cons,
        List.length_nil, List.length_singleton]
      omega

theorem backupPathFor_ne (file : String) (nowMs : Nat) :
    backupPathFor file nowMs ≠ file := by
  intro h
  have h1 := backupPathFor_length file nowMs
  rw [h] at h1
  omega

/-!
## Storage operations (fix store)
-/

def getFixById (fixes : List StoredFix) (fixId : String) : Option StoredFix :=
  fixes.find? (fun f => f.fix.id = fixId)

/-- updateFixConfirmation: find the stored fix, set its confirmation, set
the status to confirmed on an approve action and to rejected on any other
action, stamp confirmedAt and updatedAt. -/
def updateFixConfirmation (now : String) (fixId : String)
    (confirmation : FixConfirmation) (fixes : List StoredFix) :
    Bool × List StoredFix :=
  match fixes.find? (fun f => f.fix.id = fixId) with
  | none => (false, fixes)
  | some _ =>
    (true, replaceFirst (fun f => f.fix.id = fixId) (fun f =>
      { f with
        confirmation := some confirmation,
        fix := { f.fix with
          status := if confirmation.action = "approve" then "confirmed" else "rejected",
          confirmedAt := some confirmation.confirmedAt },
        updatedAt := now }) fixes)

/-- updateFixApplication: find the stored fix, set its application record,
set the status to applied on success and to failed otherwise, stamp
appliedAt and updatedAt. -/
def updateFixApplication (now : String) (fixId : String)
    (application : FixApplication) (fixes : List StoredFix) :
    Bool × List StoredFix :=
  match fixes.find? (fun f => f.fix.id = fixId) with
  | none => (false, fixes)
  | some _ =>
    (true, replaceFirst (fun f => f.fix.id = fixId) (fun f =>
      { f with
        application := some application,
        fix := { f.fix with
          status := if application.success then "applied" else "failed",
          appliedAt := some application.appliedAt },
        updatedAt := now }) fixes)

/-!
## Confirm / apply / rollback tools
-/

structure ConfirmFixResult where
  success : Bool
  confirmation : FixConfirmation
  fix : Option FixSuggestion
  message : String
deriving DecidableEq, Repr

/-- confirmFix: look the fix up, store the confirmation, and report.  A
rejection message substitutes a default when the reason is falsy. -/
def confirmFix (env : Env) (fixId action : String)
    (modifiedCode reason : Option String) (st : SysState) :
    ConfirmFixResult × SysState :=
  match getFixById st.fixes fixId with
  | none =>
    ({ success := false,
       confirmation := { fixId := fixId, action := action, confirmedAt := env.now },
       fix := none,
       message := "Fix not found: " ++ fixId }, st)
  | some storedFix =>
    let confirmation : FixConfirmation :=
      { fixId := fixId, action := action, modifiedCode := modifiedCode,
        reason := reason, confirmedAt := env.now }
    let u := updateFixConfirmation env.now fixId confirmation st.fixes
    if u.1 then
      ({ success := true, confirmation := confirmation, fix := some storedFix.fix,
         message :=
           if action = "approve" then
             "Fix approved: " ++ storedFix.fix.title ++ ". Ready to apply."
           else if action = "reject" then
             "Fix rejected: " ++ storedFix.fix.title ++ ". " ++
               (if jsTruthy reason then reason.getD "" else "No reason provided")
           else if action = "modify" then
             "Fix modified: " ++ storedFix.fix.title ++ ". Using custom code."
           else "" },
       { st with fixes := u.2 })
    else
      ({ success := false, confirmation := confirmation, fix := some storedFix.fix,
         message := "Failed to update fix confirmation" }, st)

/-- The typed apply-time errors; the source formats each as the message
string recorded in the application audit record. -/
inductive ApplyError where
  | notFound (fixId : String)
  | notConfirmed
  | readFailed (file : String)
  | writeFailed (msg : String)
  | validationFailed (msg : Option String)
deriving DecidableEq, Repr

def applyErrorMessage : ApplyError → String
  | .notFound fixId => "Fix not found: " ++ fixId
  | .notConfirmed => "Fix must be confirmed before applying"
  | .readFailed file => "Failed to read file: " ++ file
  | .writeFailed msg => "Failed to write file: " ++ msg
  | .validationFailed msg => "Syntax validation failed: " ++ jsTemplate msg

/-- validateSyntax: for the JavaScript-family extensions, balanced brace
and parenthesis counts; all other extensions pass.  Returns the validity
and the error text. -/
def validateSyntax (filePath content : String) : Bool × Option String :=
  let ext := jsExtname filePath
  if ext = ".js" || ext = ".jsx" || ext = ".ts" || ext = ".tsx" then
    if countChar content '{' ≠ countChar content '}' then
      (false, some "Unbalanced braces")
    else if countChar content '(' ≠ countChar content ')' then
      (false, some "Unbalanced parentheses")
    else (true, none)
  else (true, none)

/-- One candidate window of the exact-match scan of applyFix: every line of
originalCode must be in range and match the file line after trimming. -/
def windowMatches (lines origLines : List String) (i : Nat) : Bool :=
  (List.range origLines.length).all (fun j =>
    decide (i + j < lines.length) &&
      (jsTrim (lines.getD (i + j) "") = jsTrim (origLines.getD j "")))

/-- The exact-match scan: first window index whose trimmed lines equal the
originalCode lines. -/
def findStartLine (lines origLines : List String) : Option Nat :=
  (List.range lines.length).find? (fun i => windowMatches lines origLines i)

/-- The splice start: the exact match when found, otherwise the anchored
fallback max(0, fix.line - 2).  (The searchStart/searchEnd bounds the
source computes in the fallback are unused there.) -/
def applyStartLine (lines origLines : List String) (fixLine : Int) : Int :=
  match findStartLine lines origLines with
  | some i => (i : Int)
  | none => max 0 (fixLine - 2)

/-- The new file content applyFix builds: replace len(originalCode.lines)
lines at the start index by the new code lines; the negative-index branch
appending a commented manual-action block is dead code, because the
fallback start is clamped at zero (theorem c6 below). -/
def spliceNewContent (originalContent origCode codeToApply : String)
    (fixLine : Int) : String :=
  let lines := splitLines originalContent
  let originalCodeLines := splitLines origCode
  let newCodeLines := splitLines codeToApply
  let startLine := applyStartLine lines originalCodeLines fixLine
  if 0 ≤ startLine then
    joinLines (lines.take startLine.toNat ++ newCodeLines ++
      lines.drop (startLine.toNat + originalCodeLines.length))
  else
    originalContent ++ "\n\n// TODO: Apply fix manually\n// " ++
      String.intercalate "\n// " newCodeLines

/-- Which code applyFix applies: the confirmation's modifiedCode when the
action is modify and the modifiedCode is truthy, the suggestedCode
otherwise. -/
def applyCodeToApply (storedFix : StoredFix) : String :=
  match storedFix.confirmation with
  | some conf =>
    if conf.action = "modify" && jsTruthy conf.modifiedCode then
      conf.modifiedCode.getD ""
    else storedFix.fix.suggestedCode
  | none => storedFix.fix.suggestedCode

structure ApplyFixResult where
  success : Bool
  application : FixApplication
  backupPath : Option String := none
  error : Option ApplyError := none
deriving DecidableEq, Repr

/-- applyFix.  Not-found and not-confirmed fail fast; the file is read; the
code to apply is located by exact match or anchored fallback; a dry run
returns without touching anything; otherwise an optional backup is written,
the file is overwritten, a failed write restores from the backup when one
exists, a failed post-write validation restores from the backup when one
exists; only the success path records the application in the store.  The
unified-diff preview string of the result is presentation and is not
modelled. -/
def applyFix (env : Env) (fixId : String) (backup validate dryRun : Bool)
    (st : SysState) : ApplyFixResult × SysState :=
  match getFixById st.fixes fixId with
  | none =>
    ({ success := false,
       application :=
         { fixId := fixId, success := false,
           error := some (applyErrorMessage (.notFound fixId)),
           appliedAt := env.now },
       error := some (.notFound fixId) }, st)
  | some storedFix =>
    if storedFix.fix.status ≠ "confirmed" ∧ storedFix.confirmation = none then
      ({ success := false,
         application :=
           { fixId := fixId, success := false,
             error := some (applyErrorMessage .notConfirmed),
             appliedAt := env.now },
         error := some .notConfirmed }, st)
    else
      match fsRead st.fs storedFix.fix.file with
      | none =>
        ({ success := false,
           application :=
             { fixId := fixId, success := false,
               error := some (applyErrorMessage (.readFailed storedFix.fix.file)),
               appliedAt := env.now },
           error := some (.readFailed storedFix.fix.file) }, st)
      | some originalContent =>
        let codeToApply := applyCodeToApply storedFix
        let newContent := spliceNewContent originalContent
          storedFix.fix.originalCode codeToApply storedFix.fix.line
        if dryRun then
          ({ success := true,
             application :=
               { fixId := fixId, success := true, appliedAt := env.now } }, st)
        else
          let backupPath : Option String :=
            if backup && !env.backupFails then
              some (backupPathFor storedFix.fix.file env.nowMs)
            else none
          let fs1 := match backupPath with
            | some bp => fsWrite st.fs bp originalContent
            | none => st.fs
          if env.writeFails then
            let fs2 := match backupPath with
              | some bp =>
                if (fsRead fs1 bp).isSome then
                  fsWrite fs1 storedFix.fix.file originalContent
                else fs1
              | none => fs1
            ({ success := false,
               application :=
                 { fixId := fixId, success := false,
                   backupPath := backupPath,
                   error := some (applyErrorMessage (.writeFailed env.writeErrMsg)),
                   appliedAt := env.now },
               backupPath := backupPath,
               error := some (.writeFailed env.writeErrMsg) },
             { st with fs := fs2 })
          else
            let fs2 := fsWrite fs1 storedFix.fix.file newContent
            let v := validateSyntax storedFix.fix.file newContent
            if validate && !v.1 then
              let fs3 := match backupPath with
                | some bp =>
                  if (fsRead fs2 bp).isSome then
                    fsWrite fs2 storedFix.fix.file originalContent
                  else fs2
                | none => fs2
              ({ success := false,
                 application :=
                   { fixId := fixId, success := false,
                     backupPath := backupPath,
                     error := some (applyErrorMessage (.validationFailed v.2)),
                     appliedAt := env.now },
                 backupPath := backupPath,
                 error := some (.validationFailed v.2) },
               { st with fs := fs3 })
            else
              let application : FixApplication :=
                { fixId := fixId, success := true, backupPath := backupPath,
                  appliedAt := env.now }
              ({ success := true, application := application,
                 backupPath := backupPath },
               { fs := fs2,
                 fixes := (updateFixApplication env.now fixId application st.fixes).2 })

structure RollbackResult where
  success : Bool
  message : String
deriving DecidableEq, Repr

/-- rollbackFix: requires the stored fix, its application record and its
backup path; restores the target file from the backup file.  The stored
record is not updated. -/
def rollbackFix (fixId : String) (st : SysState) : RollbackResult × SysState :=
  match getFixById st.fixes fixId with
  | none => ({ success := false, message := "Fix or application record not found" }, st)
  | some storedFix =>
    match storedFix.application with
    | none => ({ success := false, message := "Fix or application record not found" }, st)
    | some application =>
      match application.backupPath with
      | none => ({ success := false, message := "No backup available for rollback" }, st)
      | some bp =>
        match fsRead st.fs bp with
        | none => ({ success := false, message := "Rollback failed: backup unreadable" }, st)
        | some backupContent =>
          ({ success := true,
             message := "Successfully rolled back " ++ storedFix.fix.file },
           { st with fs := fsWrite st.fs storedFix.fix.file backupContent })

/-!
## The remediation operation machine (for the status-range invariant)
-/

inductive FixOp where
  | confirmOp (env : Env) (fixId action : String) (modifiedCode reason : Option String)
  | applyOp (env : Env) (fixId : String) (backup validate dryRun : Bool)
  | rollbackOp (fixId : String)

def stepOp : FixOp → SysState → SysState
  | .confirmOp env fixId action mc r, st => (confirmFix env fixId action mc r st).2
  | .applyOp env fixId b v d, st => (applyFix env fixId b v d st).2
  | .rollbackOp fixId, st => (rollbackFix fixId st).2

def runOps : List FixOp → SysState → SysState
  | [], st => st
  | op :: ops, st => runOps ops (stepOp op st)

/-- The four status values reachable through the confirm / apply / rollback
tools. -/
def statusLegal (s : String) : Prop :=
  s = "pending" ∨ s = "confirmed" ∨ s = "rejected" ∨ s = "applied"

instance (s : String) : Decidable (statusLegal s) := by
  unfold statusLegal
  infer_instance

/-!
## Concrete fixtures for witnesses and counterexamples
-/

def exEnv : Env := { now := "t1", nowMs := 1000 }

def exFixConfirmed : FixSuggestion :=
  { id := "fix-1", issueId := "issue-1", title := "Fix: non-null assertion",
    description := "Use optional chaining", confidence := 85,
    file := "src/a.ts", line := 1,
    originalCode := "let x = a!.b;", suggestedCode := "let x = a?.b;",
    status := "confirmed", createdAt := "t0" }

def exStateConfirmed : SysState :=
  { fs := [("src/a.ts", "let x = a!.b;\nconsole.log(x);")],
    fixes := [{ fix := exFixConfirmed, projectPath := "/proj",
                createdAt := "t0", updatedAt := "t0" }] }

def exFixRejected : FixSuggestion :=
  { exFixConfirmed with status := "rejected" }

def exStateRejected : SysState :=
  { fs := [("src/a.ts", "let x = a!.b;\nconsole.log(x);")],
    fixes := [{ fix := exFixRejected,
                confirmation := some
                  { fixId := "fix-1", action := "reject",
                    reason := some "not needed", confirmedAt := "t1" },
                projectPath := "/proj", createdAt := "t0", updatedAt := "t1" }] }

def exFixPendingNoConf : FixSuggestion :=
  { exFixConfirmed with status := "pending" }

def exStatePendingNoConf : SysState :=
  { fs := [("src/a.ts", "let x = a!.b;\nconsole.log(x);")],
    fixes := [{ fix := exFixPendingNoConf, projectPath := "/proj",
                createdAt := "t0", updatedAt := "t0" }] }

/-!
## Claim C1
-/

/-- C1, amended: applyFix fails with the typed not-confirmed error, and
leaves the filesystem and store unchanged, exactly when the stored Fix's
status is not confirmed AND no confirmation record is stored for it; a Fix
with any stored confirmation record — including one recording a rejection —
passes the gate and can be applied (see the counterexample). -/
theorem c1_unconfirmed_apply_fails (env : Env) (fixId : String)
    (backup validate dryRun : Bool) (st : SysState) (sf : StoredFix)
    (hfind : getFixById st.fixes fixId = some sf)
    (hstatus : sf.fix.status ≠ "confirmed")
    (hconf : sf.confirmation = none) :
    (applyFix env fixId backup validate dryRun st).1.success = false ∧
    (applyFix env fixId backup validate dryRun st).1.error = some .notConfirmed ∧
    (applyFix env fixId backup validate dryRun st).2 = st := by
  unfold applyFix
  rw [hfind]
  simp [hstatus, hconf]

/-- C1 witness: the not-confirmed failure at a concrete pending Fix with no
confirmation record. -/
theorem c1_witness :
    (applyFix exEnv "fix-1" true true false exStatePendingNoConf).1.success = false ∧
    (applyFix exEnv "fix-1" true true false exStatePendingNoConf).1.error
      = some .notConfirmed ∧
    (applyFix exEnv "fix-1" true true false exStatePendingNoConf).2
      = exStatePendingNoConf :=
  c1_unconfirmed_apply_fails exEnv "fix-1" true true false exStatePendingNoConf
    { fix := exFixPendingNoConf, projectPath := "/proj",
      createdAt := "t0", updatedAt := "t0" }
    (by decide) (by decide) (by decide)

/-- C1 counterexample: a stored Fix whose status is rejected (set by a
rejecting confirmFix, which stores a confirmation record) is applied
anyway: applyFix succeeds and mutates the target file.  This refutes the
claim that every Fix whose status is not confirmed fails with the
not-confirmed error and leaves the file unchanged. -/
theorem c1_counterexample :
    (getFixById exStateRejected.fixes "fix-1").map (fun sf => sf.fix.status)
      = some "rejected" ∧
    (applyFix exEnv "fix-1" true true false exStateRejected).1.success = true ∧
    (applyFix exEnv "fix-1" true true false exStateRejected).1.error = none ∧
    fsRead (applyFix exEnv "fix-1" true true false exStateRejected).2.fs "src/a.ts"
      = some "let x = a?.b;\nconsole.log(x);" ∧
    some "let x = a?.b;\nconsole.log(x);"
      ≠ fsRead exStateRejected.fs "src/a.ts" := by
  refine ⟨by decide, by decide, by decide, by decide, by decide⟩

/-!
## Claim C4
-/

/-- C4 counterexample: the backup is optional.  With the createBackup flag
off, applyFix overwrites the target file in place with no backup anywhere:
the post-state filesystem is exactly the single mutated entry.  This refutes
the claim that no code path overwrites the file without a retained backup. -/
theorem c4_counterexample :
    (applyFix exEnv "fix-1" false true false exStateConfirmed).1.success = true ∧
    (applyFix exEnv "fix-1" false true false exStateConfirmed).1.backupPath = none ∧
    (applyFix exEnv "fix-1" false true false exStateConfirmed).2.fs
      = [("src/a.ts", "let x = a?.b;\nconsole.log(x);")] := by
  refine ⟨by decide, by decide, by decide⟩

/-- C4, amended: only when the backup is requested and its write does not
throw does the pre-mutation content survive: the result then reports the
timestamped backup path and the backup file holds the original content
(whether or not the post-write validation forced a restore). -/
theorem c4_backup_when_requested (env : Env) (fixId : String) (validate : Bool)
    (st : SysState) (sf : StoredFix) (orig : String)
    (hfind : getFixById st.fixes fixId = some sf)
    (hgate : ¬(sf.fix.status ≠ "confirmed" ∧ sf.confirmation = none))
    (hread : fsRead st.fs sf.fix.file = some orig)
    (hbf : env.backupFails = false)
    (hwf : env.writeFails = false) :
    (applyFix env fixId true validate false st).1.backupPath
      = some (backupPathFor sf.fix.file env.nowMs) ∧
    fsRead (applyFix env fixId true validate false st).2.fs
      (backupPathFor sf.fix.file env.nowMs) = some orig := by
  have hne := backupPathFor_ne sf.fix.file env.nowMs
  unfold applyFix
  rw [hfind]
  by_cases hv : (validate && !(validateSyntax sf.fix.file
      (spliceNewContent orig sf.fix.originalCode (applyCodeToApply sf)
        sf.fix.line)).1) = true
  · simp [hgate, hbf, hwf, hv, hread, fsRead_fsWrite_same, fsRead_fsWrite_other, hne]
  · simp [hgate, hbf, hwf, hv, hread, fsRead_fsWrite_same, fsRead_fsWrite_other, hne]

/-- C4 witness: at the concrete confirmed fix, the backup path is reported
and the backup file holds the pre-mutation content. -/
theorem c4_witness :
    (applyFix exEnv "fix-1" true true false exStateConfirmed).1.backupPath
      = some (backupPathFor "src/a.ts" 1000) ∧
    fsRead (applyFix exEnv "fix-1" true true false exStateConfirmed).2.fs
      (backupPathFor "src/a.ts" 1000) = some "let x = a!.b;\nconsole.log(x);" :=
  c4_backup_when_requested exEnv "fix-1" true exStateConfirmed
    { fix := exFixConfirmed, projectPath := "/proj",
      createdAt := "t0", updatedAt := "t0" }
    "let x = a!.b;\nconsole.log(x);" (by decide) (by decide) (by decide) rfl rfl

/-!
## Claim C5
-/

def exFixUnbalanced : FixSuggestion :=
  { exFixConfirmed with suggestedCode := "let x = (a.b;" }

def exStateUnbalanced : SysState :=
  { fs := [("src/a.ts", "let x = a!.b;\nconsole.log(x);")],
    fixes := [{ fix := exFixUnbalanced, projectPath := "/proj",
                createdAt := "t0", updatedAt := "t0" }] }

/-- C5 counterexample: when no backup was taken (createBackup off), a failed
post-write sanity check does NOT restore the original content: applyFix
reports the validation failure but the target file is left holding the
syntactically invalid post-write state.  This refutes the claim that the
file is never left in the invalid post-write state. -/
theorem c5_counterexample :
    (applyFix exEnv "fix-1" false true false exStateUnbalanced).1.success = false ∧
    (applyFix exEnv "fix-1" false true false exStateUnbalanced).1.error
      = some (.validationFailed (some "Unbalanced parentheses")) ∧
    fsRead (applyFix exEnv "fix-1" false true false exStateUnbalanced).2.fs "src/a.ts"
      = some "let x = (a.b;\nconsole.log(x);" ∧
    (validateSyntax "src/a.ts" "let x = (a.b;\nconsole.log(x);").1 = false := by
  refine ⟨by decide, by decide, by decide, by decide⟩

/-- C5, amended: the automatic restore after a failed post-write sanity
check happens only when a backup exists: with the backup requested and
written, a validation failure reports the typed error and the target file
is restored to the original content. -/
theorem c5_validation_restore_with_backup (env : Env) (fixId : String)
    (st : SysState) (sf : StoredFix) (orig : String)
    (hfind : getFixById st.fixes fixId = some sf)
    (hgate : ¬(sf.fix.status ≠ "confirmed" ∧ sf.confirmation = none))
    (hread : fsRead st.fs sf.fix.file = some orig)
    (hbf : env.backupFails = false)
    (hwf : env.writeFails = false)
    (hval : (validateSyntax sf.fix.file
      (spliceNewContent orig sf.fix.originalCode (applyCodeToApply sf)
        sf.fix.line)).1 = false) :
    (applyFix env fixId true true false st).1.success = false ∧
    (applyFix env fixId true true false st).1.error
      = some (.validationFailed (validateSyntax sf.fix.file
          (spliceNewContent orig sf.fix.originalCode (applyCodeToApply sf)
            sf.fix.line)).2) ∧
    fsRead (applyFix env fixId true true false st).2.fs sf.fix.file = some orig := by
  have hne := backupPathFor_ne sf.fix.file env.nowMs
  unfold applyFix
  rw [hfind]
  simp [hgate, hbf, hwf, hval, hread, fsRead_fsWrite_same, fsRead_fsWrite_other, hne]

/-- C5 witness: the restore-from-backup at the concrete fix whose suggested
code has unbalanced parentheses. -/
theorem c5_witness :
    (applyFix exEnv "fix-1" true true false exStateUnbalanced).1.success = false ∧
    (applyFix exEnv "fix-1" true true false exStateUnbalanced).1.error
      = some (.validationFailed (some "Unbalanced parentheses")) ∧
    fsRead (applyFix exEnv "fix-1" true true false exStateUnbalanced).2.fs "src/a.ts"
      = some "let x = a!.b;\nconsole.log(x);" :=
  c5_validation_restore_with_backup exEnv "fix-1" exStateUnbalanced
    { fix := exFixUnbalanced, projectPath := "/proj",
      createdAt := "t0", updatedAt := "t0" }
    "let x = a!.b;\nconsole.log(x);" (by decide) (by decide) (by decide) rfl rfl
    (by decide)

/-!
## Claim C6
-/

def exFixDrifted : FixSuggestion :=
  { exFixConfirmed with
    line := 4, originalCode := "NOMATCH",
    suggestedCode := "FIX" }

def exStateDrifted : SysState :=
  { fs := [("src/a.ts", "L0\nL1\nL2\nL3\nL4\nL5")],
    fixes := [{ fix := exFixDrifted, projectPath := "/proj",
                createdAt := "t0", updatedAt := "t0" }] }

/-- C6, amended: when the exact-match scan finds no window for the
originalCode, the splice start is the anchored fallback max(0, line-2),
which is never negative; the new content is therefore always the in-place
splice replacing the originalCode's line count at that anchor, and the
commented manual-action branch of the source is dead code.  The splice at
the fallback anchor can replace unrelated lines (see the counterexample). -/
theorem c6_anchored_splice (originalContent origCode codeToApply : String)
    (fixLine : Int)
    (hnomatch : findStartLine (splitLines originalContent)
      (splitLines origCode) = none) :
    applyStartLine (splitLines originalContent) (splitLines origCode) fixLine
      = max 0 (fixLine - 2) ∧
    spliceNewContent originalContent origCode codeToApply fixLine
      = joinLines ((splitLines originalContent).take (max 0 (fixLine - 2)).toNat
          ++ splitLines codeToApply
          ++ (splitLines originalContent).drop
              ((max 0 (fixLine - 2)).toNat + (splitLines origCode).length)) := by
  have h1 : applyStartLine (splitLines originalContent) (splitLines origCode)
      fixLine = max 0 (fixLine - 2) := by
    unfold applyStartLine
    rw [hnomatch]
  refine ⟨h1, ?_⟩
  unfold spliceNewContent
  simp only [h1]
  rw [if_pos (le_max_left 0 (fixLine - 2))]

/-- C6 witness: at a drifted file with no matching window, the fallback
anchor and the splice form of the output, instantiated concretely. -/
theorem c6_witness :
    findStartLine (splitLines "L0\nL1\nL2\nL3\nL4\nL5") (splitLines "NOMATCH")
      = none ∧
    (applyStartLine (splitLines "L0\nL1\nL2\nL3\nL4\nL5") (splitLines "NOMATCH")
        4 = max 0 (4 - 2) ∧
     spliceNewContent "L0\nL1\nL2\nL3\nL4\nL5" "NOMATCH" "FIX" 4
      = joinLines ((splitLines "L0\nL1\nL2\nL3\nL4\nL5").take
            (max 0 ((4 : Int) - 2)).toNat
          ++ splitLines "FIX"
          ++ (splitLines "L0\nL1\nL2\nL3\nL4\nL5").drop
              ((max 0 ((4 : Int) - 2)).toNat + (splitLines "NOMATCH").length))) :=
  ⟨by decide,
   c6_anchored_splice "L0\nL1\nL2\nL3\nL4\nL5" "NOMATCH" "FIX" 4 (by decide)⟩

/-- C6 counterexample: a confirmed fix whose originalCode matches nowhere in
the externally edited file is applied successfully at the fallback anchor
line-2, silently deleting the unrelated line "L2" and not appending any
commented manual-action block.  This refutes the claim that applyFix never
mutates unrelated code in that situation. -/
theorem c6_counterexample :
    findStartLine (splitLines "L0\nL1\nL2\nL3\nL4\nL5") (splitLines "NOMATCH")
      = none ∧
    (applyFix exEnv "fix-1" false false false exStateDrifted).1.success = true ∧
    fsRead (applyFix exEnv "fix-1" false false false exStateDrifted).2.fs "src/a.ts"
      = some "L0\nL1\nFIX\nL3\nL4\nL5" := by
  refine ⟨by decide, by decide, by decide⟩

/-!
## Claim C3
-/

/-- Looking a fix up after updateFixApplication yields the same record with
the application attached, the status recomputed from the success flag, and
the timestamps stamped. -/
theorem getFixById_updateFixApplication (now fixId : String)
    (app : FixApplication) (fixes : List StoredFix) (sf : StoredFix)
    (hfind : getFixById fixes fixId = some sf) :
    getFixById ((updateFixApplication now fixId app fixes).2) fixId
      = some { sf with
          application := some app,
          fix := { sf.fix with
            status := if app.success then "applied" else "failed",
            appliedAt := some app.appliedAt },
          updatedAt := now } := by
  unfold getFixById at hfind ⊢
  unfold updateFixApplication
  rw [hfind]
  exact (find?_replaceFirst (fun f => f.fix.id = fixId)
    (fun f =>
      { f with
        application := some app,
        fix := { f.fix with
          status := if app.success then "applied" else "failed",
          appliedAt := some app.appliedAt },
        updatedAt := now })
    (fun a ha => ha) fixes).trans (by rw [hfind])

/-- C3, confirmed: a successful applyFix with the backup requested and
written, followed by rollbackFix on the same id, restores the target file
byte-for-byte to its pre-apply content. -/
theorem c3_apply_rollback_restores (env : Env) (fixId : String) (validate : Bool)
    (st : SysState) (sf : StoredFix) (orig : String)
    (hfind : getFixById st.fixes fixId = some sf)
    (hgate : ¬(sf.fix.status ≠ "confirmed" ∧ sf.confirmation = none))
    (hread : fsRead st.fs sf.fix.file = some orig)
    (hbf : env.backupFails = false)
    (hwf : env.writeFails = false)
    (hsucc : (applyFix env fixId true validate false st).1.success = true) :
    fsRead ((rollbackFix fixId
        (applyFix env fixId true validate false st).2).2).fs sf.fix.file
      = some orig := by
  have hne := backupPathFor_ne sf.fix.file env.nowMs
  unfold applyFix at hsucc ⊢
  rw [hfind] at hsucc ⊢
  by_cases hv : (validate && !(validateSyntax sf.fix.file
      (spliceNewContent orig sf.fix.originalCode (applyCodeToApply sf)
        sf.fix.line)).1) = true
  · simp [hgate, hbf, hwf, hv, hread] at hsucc
  · have hfind2 := getFixById_updateFixApplication env.now fixId
      { fixId := fixId, success := true,
        backupPath := some (backupPathFor sf.fix.file env.nowMs),
        appliedAt := env.now } st.fixes sf hfind
    simp [hgate, hbf, hwf, hv, hread, rollbackFix, hfind2,
      fsRead_fsWrite_same, fsRead_fsWrite_other, hne]

/-- C3 witness: the concrete confirmed fix is applied with a backup and then
rolled back; the file returns to its original content. -/
theorem c3_witness :
    fsRead ((rollbackFix "fix-1"
        (applyFix exEnv "fix-1" true true false exStateConfirmed).2).2).fs "src/a.ts"
      = some "let x = a!.b;\nconsole.log(x);" :=
  c3_apply_rollback_restores exEnv "fix-1" true exStateConfirmed
    { fix := exFixConfirmed, projectPath := "/proj",
      createdAt := "t0", updatedAt := "t0" }
    "let x = a!.b;\nconsole.log(x);" (by decide) (by decide) (by decide) rfl rfl
    (by decide)

/-!
## Claim C9
-/

/-- Looking a fix up after updateFixConfirmation yields the same record with
the confirmation attached, the status recomputed from the action, and the
timestamps stamped. -/
theorem getFixById_updateFixConfirmation (now fixId : String)
    (conf : FixConfirmation) (fixes : List StoredFix) (sf : StoredFix)
    (hfind : getFixById fixes fixId = some sf) :
    getFixById ((updateFixConfirmation now fixId conf fixes).2) fixId
      = some { sf with
          confirmation := some conf,
          fix := { sf.fix with
            status := if conf.action = "approve" then "confirmed" else "rejected",
            confirmedAt := some conf.confirmedAt },
          updatedAt := now } := by
  unfold getFixById at hfind ⊢
  unfold updateFixConfirmation
  rw [hfind]
  exact (find?_replaceFirst (fun f => f.fix.id = fixId)
    (fun f =>
      { f with
        confirmation := some conf,
        fix := { f.fix with
          status := if conf.action = "approve" then "confirmed" else "rejected",
          confirmedAt := some conf.confirmedAt },
        updatedAt := now })
    (fun a ha => ha) fixes).trans (by rw [hfind])

/-- Once a stored fix carries any confirmation record, no applyFix path
produces the not-confirmed error. -/
theorem applyFix_error_ne_notConfirmed (env : Env) (fixId : String)
    (b v d : Bool) (st : SysState) (sf : StoredFix)
    (hfind : getFixById st.fixes fixId = some sf)
    (hconf : sf.confirmation ≠ none) :
    (applyFix env fixId b v d st).1.error ≠ some ApplyError.notConfirmed := by
  have hgate : ¬(sf.fix.status ≠ "confirmed" ∧ sf.confirmation = none) := by
    intro h
    exact hconf h.2
  unfold applyFix
  rw [hfind]
  cases hread : fsRead st.fs sf.fix.file with
  | none => simp [hgate, hread]
  | some orig =>
    by_cases hd : d = true
    · simp [hgate, hread, hd]
    · by_cases hw : env.writeFails = true
      · simp [hgate, hread, hd, hw]
      · by_cases hv : (v && !(validateSyntax sf.fix.file
            (spliceNewContent orig sf.fix.originalCode (applyCodeToApply sf)
              sf.fix.line)).1) = true
        · simp [hgate, hread, hd, hw, hv]
        · simp [hgate, hread, hd, hw, hv]

/-- C9, confirmed: confirming an existing fix with the modify action and a
non-empty modifiedCode stores the confirmation but sets the status to
rejected (every non-approve action maps to rejected); nevertheless the code
applyFix would apply is the confirmation's modifiedCode, and no applyFix
call on the resulting state can fail with the not-confirmed error, because
the stored confirmation record bypasses the status gate. -/
theorem c9_modify_rejected_still_applies (env : Env) (fixId mc : String)
    (reason : Option String) (st : SysState) (sf : StoredFix)
    (hfind : getFixById st.fixes fixId = some sf)
    (hmc : mc ≠ "") :
    ((getFixById ((confirmFix env fixId "modify" (some mc) reason st).2).fixes
        fixId).map (fun f => f.fix.status)) = some "rejected" ∧
    ((getFixById ((confirmFix env fixId "modify" (some mc) reason st).2).fixes
        fixId).map applyCodeToApply) = some mc ∧
    ∀ (env' : Env) (b v d : Bool),
      (applyFix env' fixId b v d
        ((confirmFix env fixId "modify" (some mc) reason st).2)).1.error
        ≠ some ApplyError.notConfirmed := by
  have hfind0 := hfind
  unfold getFixById at hfind0
  have hfixes : ((confirmFix env fixId "modify" (some mc) reason st).2).fixes
      = (updateFixConfirmation env.now fixId
          { fixId := fixId, action := "modify", modifiedCode := some mc,
            reason := reason, confirmedAt := env.now } st.fixes).2 := by
    unfold confirmFix
    rw [hfind]
    simp [updateFixConfirmation, hfind0]
  have hconf' := getFixById_updateFixConfirmation env.now fixId
    { fixId := fixId, action := "modify", modifiedCode := some mc,
      reason := reason, confirmedAt := env.now } st.fixes sf hfind
  refine ⟨?_, ?_, ?_⟩
  · rw [hfixes, hconf']
    simp
  · rw [hfixes, hconf']
    simp [applyCodeToApply, jsTruthy, hmc]
  · intro env' b v d
    exact applyFix_error_ne_notConfirmed env' fixId b v d _ _
      (hfixes.symm ▸ hconf') (by simp)

/-- C9 witness: modifying the concrete pending fix with custom code marks
it rejected, yet the code to apply becomes the custom code and applyFix on
the resulting state does not report not-confirmed. -/
theorem c9_witness :
    ((getFixById ((confirmFix exEnv "fix-1" "modify" (some "let y = 0;") none
        exStatePendingNoConf).2).fixes "fix-1").map (fun f => f.fix.status))
      = some "rejected" ∧
    ((getFixById ((confirmFix exEnv "fix-1" "modify" (some "let y = 0;") none
        exStatePendingNoConf).2).fixes "fix-1").map applyCodeToApply)
      = some "let y = 0;" ∧
    (applyFix exEnv "fix-1" true true false
        ((confirmFix exEnv "fix-1" "modify" (some "let y = 0;") none
          exStatePendingNoConf).2)).1.error ≠ some ApplyError.notConfirmed :=
  ⟨(c9_modify_rejected_still_applies exEnv "fix-1" "let y = 0;" none
      exStatePendingNoConf
      { fix := exFixPendingNoConf, projectPath := "/proj",
        createdAt := "t0", updatedAt := "t0" }
      (by decide) (by decide)).1,
   (c9_modify_rejected_still_applies exEnv "fix-1" "let y = 0;" none
      exStatePendingNoConf
      { fix := exFixPendingNoConf, projectPath := "/proj",
        createdAt := "t0", updatedAt := "t0" }
      (by decide) (by decide)).2.1,
   (c9_modify_rejected_still_applies exEnv "fix-1" "let y = 0;" none
      exStatePendingNoConf
      { fix := exFixPendingNoConf, projectPath := "/proj",
        createdAt := "t0", updatedAt := "t0" }
      (by decide) (by decide)).2.2 exEnv true true false⟩

/-!
## Claim C10
-/

/-- Every record in the store after confirmFix was either there before or
has its status set by the confirmation update: confirmed on approve,
rejected on everything else. -/
theorem confirmFix_mem (env : Env) (fixId action : String)
    (mc r : Option String) (st : SysState) (sf : StoredFix)
    (hmem : sf ∈ ((confirmFix env fixId action mc r st).2).fixes) :
    sf ∈ st.fixes ∨ sf.fix.status = "confirmed" ∨ sf.fix.status = "rejected" := by
  unfold confirmFix at hmem
  cases hfind : getFixById st.fixes fixId with
  | none =>
    rw [hfind] at hmem
    exact Or.inl hmem
  | some sf0 =>
    rw [hfind] at hmem
    unfold getFixById at hfind
    simp only [updateFixConfirmation, hfind] at hmem
    rcases mem_replaceFirst hmem with h1 | ⟨a, ha, hpa, hba⟩
    · exact Or.inl h1
    · subst hba
      by_cases hact : action = "approve"
      · refine Or.inr (Or.inl ?_)
        simp [hact]
      · refine Or.inr (Or.inr ?_)
        simp [hact]

/-- Every record in the store after applyFix was either there before or has
status applied: the store is only updated on the success path, and that
update always records success := true. -/
theorem applyFix_mem (env : Env) (fixId : String) (b v d : Bool)
    (st : SysState) (sf : StoredFix)
    (hmem : sf ∈ ((applyFix env fixId b v d st).2).fixes) :
    sf ∈ st.fixes ∨ sf.fix.status = "applied" := by
  unfold applyFix at hmem
  cases hfind : getFixById st.fixes fixId with
  | none =>
    rw [hfind] at hmem
    exact Or.inl hmem
  | some sf0 =>
    rw [hfind] at hmem
    simp only [] at hmem
    by_cases hgate : (sf0.fix.status ≠ "confirmed" ∧ sf0.confirmation = none)
    · rw [if_pos hgate] at hmem
      exact Or.inl hmem
    · rw [if_neg hgate] at hmem
      cases hread : fsRead st.fs sf0.fix.file with
      | none =>
        rw [hread] at hmem
        exact Or.inl hmem
      | some orig =>
        rw [hread] at hmem
        simp only [] at hmem
        by_cases hd : d = true
        · rw [if_pos hd] at hmem
          exact Or.inl hmem
        · rw [if_neg hd] at hmem
          by_cases hw : env.writeFails = true
          · rw [if_pos hw] at hmem
            exact Or.inl hmem
          · rw [if_neg hw] at hmem
            by_cases hv : (v && !(validateSyntax sf0.fix.file
                (spliceNewContent orig sf0.fix.originalCode
                  (applyCodeToApply sf0) sf0.fix.line)).1) = true
            · rw [if_pos hv] at hmem
              exact Or.inl hmem
            · rw [if_neg hv] at hmem
              unfold getFixById at hfind
              simp only [updateFixApplication, hfind] at hmem
              rcases mem_replaceFirst hmem with h1 | ⟨a, ha, hpa, hba⟩
              · exact Or.inl h1
              · subst hba
                exact Or.inr rfl

/-- rollbackFix never changes the fix store. -/
theorem rollbackFix_fixes (fixId : String) (st : SysState) :
    ((rollbackFix fixId st).2).fixes = st.fixes := by
  unfold rollbackFix
  repeat' split
  all_goals rfl

/-- One tool call preserves the status range. -/
theorem stepOp_preserves (op : FixOp) (st : SysState)
    (h : ∀ sf ∈ st.fixes, statusLegal sf.fix.status) :
    ∀ sf ∈ (stepOp op st).fixes, statusLegal sf.fix.status := by
  intro sf hmem
  cases op with
  | confirmOp env fixId action mc r =>
    rcases confirmFix_mem env fixId action mc r st sf hmem with h1 | h2 | h3
    · exact h sf h1
    · exact Or.inr (Or.inl h2)
    · exact Or.inr (Or.inr (Or.inl h3))
  | applyOp env fixId b v d =>
    rcases applyFix_mem env fixId b v d st sf hmem with h1 | h2
    · exact h sf h1
    · exact Or.inr (Or.inr (Or.inr h2))
  | rollbackOp fixId =>
    rw [stepOp, rollbackFix_fixes] at hmem
    exact h sf hmem

/-- C10, confirmed: under every sequence of confirm / apply / rollback
calls, every stored fix's status stays in the set pending, confirmed,
rejected, applied, provided it started there: confirmFix only writes
confirmed or rejected, applyFix only updates the store on its success path
and that update always writes applied, and rollbackFix never touches the
store, so failed and rolled_back are never assigned. -/
theorem c10_status_range (ops : List FixOp) (st : SysState)
    (h : ∀ sf ∈ st.fixes, statusLegal sf.fix.status)
    (sf : StoredFix) (hmem : sf ∈ (runOps ops st).fixes) :
    statusLegal sf.fix.status := by
  induction ops generalizing st with
  | nil => exact h sf hmem
  | cons op ops ih =>
    exact ih (stepOp op st) (stepOp_preserves op st h) hmem

/-- The stored record after approving, applying (with backup) and rolling
back the concrete pending fix. -/
def exOpsFinalFix : StoredFix :=
  { fix :=
      { id := "fix-1", issueId := "issue-1",
        title := "Fix: non-null assertion",
        description := "Use optional chaining", confidence := 85,
        file := "src/a.ts", line := 1, originalCode := "let x = a!.b;",
        suggestedCode := "let x = a?.b;", status := "applied",
        createdAt := "t0", confirmedAt := some "t1", appliedAt := some "t1" },
    confirmation := some
      { fixId := "fix-1", action := "approve", confirmedAt := "t1" },
    application := some
      { fixId := "fix-1", success := true,
        backupPath := some "src/.test-genie-backups/a.ts.1000.bak",
        appliedAt := "t1" },
    projectPath := "/proj", createdAt := "t0", updatedAt := "t1" }

/-- C10 witness: after a concrete confirm-apply-rollback run the stored
record is in the store and its status is in the legal range. -/
theorem c10_witness :
    (runOps [FixOp.confirmOp exEnv "fix-1" "approve" none none,
        FixOp.applyOp exEnv "fix-1" true true false,
        FixOp.rollbackOp "fix-1"] exStatePendingNoConf).fixes
      = [exOpsFinalFix] ∧
    statusLegal exOpsFinalFix.fix.status :=
  ⟨by decide,
   c10_status_range [FixOp.confirmOp exEnv "fix-1" "approve" none none,
        FixOp.applyOp exEnv "fix-1" true true false,
        FixOp.rollbackOp "fix-1"] exStatePendingNoConf (by decide)
     exOpsFinalFix (by
       have hfx : (runOps [FixOp.confirmOp exEnv "fix-1" "approve" none none,
           FixOp.applyOp exEnv "fix-1" true true false,
           FixOp.rollbackOp "fix-1"] exStatePendingNoConf).fixes
           = [exOpsFinalFix] := by decide
       rw [hfx]
       exact List.mem_cons_self exOpsFinalFix [])⟩
